import Mathlib

/-!
Verification development for the PDB-format ingestion pipeline
(`src/read/parser.rs`): a per-line lexer, a stateful stream assembler,
post-scan sequence reconciliation and modification application, and a
severity-graded error model with a configurable failure threshold.

The source file `parser.rs` is embedded faithfully below.  Collaborator
types that live outside the provided source (the hierarchical data model
`PDB`/`Model`/`Chain`/`Residue`/`Atom`, the error type, the reference
tables) are modelled from the specification; each such definition carries
a doc comment starting with `Modelled from the spec:`.

Machine integers are modelled as `Nat`/`Int` (with the 64-bit overflow
bound where Rust's `from_str` would reject), `f64` values as `Rat`
(the numeric grammar of `f64::from_str` restricted to finite decimals;
no claim depends on non-finite values).  Process aborts (`panic!` and
`.expect(...)` in the source) are modelled explicitly as the `.error`
case of `Except String`.
-/

namespace PdbTbx

/-- Severity taxonomy of diagnostics, low to high, as described by the
spec (unrecognized-input, loose-style-warning, strict-consistency-warning,
invalidating-content-error, breaking-structural-error).  The constructor
names follow the source's `ErrorLevel` uses in `parser.rs`. -/
inductive ErrorLevel where
  | GeneralWarning
  | LooseWarning
  | StrictWarning
  | InvalidatingError
  | BreakingError
deriving DecidableEq, Repr

/-- Ordinal of a severity in the (totally ordered) taxonomy. -/
def ErrorLevel.rank : ErrorLevel → Nat
  | .GeneralWarning => 0
  | .LooseWarning => 1
  | .StrictWarning => 2
  | .InvalidatingError => 3
  | .BreakingError => 4

/-- Modelled from the spec: the strictness threshold is "a total order
over the five-level taxonomy" selecting "the maximum diagnostic severity
tolerated without failing the whole parse"; the `StrictnessLevel` type
itself is declared outside the provided source. -/
abbrev StrictnessLevel := ErrorLevel

/-- Context of a diagnostic: whole-input (`Show`), a full line
(`FullLine`), or a line with a column span (`Line`), mirroring the
source's `Context::show`, `Context::full_line` and `Context::line`. -/
inductive Context where
  | None
  | Show (text : String)
  | FullLine (linenumber : Nat) (text : String)
  | Line (linenumber : Nat) (text : String) (start : Nat) (length : Nat)
deriving DecidableEq, Repr

/-- Diagnostic record: severity, short title, human-readable detail and
location, mirroring the source's `PDBError`. -/
structure PDBError where
  level : ErrorLevel
  short_description : String
  long_description : String
  context : Context
deriving DecidableEq, Repr

/-- Constructor mirroring `PDBError::new`. -/
def PDBError.new (level : ErrorLevel) (short_description : String)
    (long_description : String) (context : Context) : PDBError :=
  ⟨level, short_description, long_description, context⟩

/-- Modelled from the spec: a diagnostic fails the parse when its
severity exceeds the configured maximum tolerated severity (the
definition of `ErrorLevel::fails` is outside the provided source). -/
def PDBError.fails (e : PDBError) (level : StrictnessLevel) : Bool :=
  level.rank < e.level.rank

/-! Character-slice utilities.  Source lines are modelled as `List Char`.
The source indexes `chars[a..b]` directly and aborts the process on a
too-short line.  The aborts the claims depend on are modelled explicitly
as the `Except.error` (panic) channel of the lexers: the REMARK
number-field slice `chars[7..10]` on lines of length 7 to 9, and the
shared atom-basics column reads `chars[75]`, `chars[77]` and `chars[79]`
at line lengths exactly 75, 77 and (conditionally) 79.  In the remaining
spots — reached only by record kinds and lengths no claim quantifies
over — `slice` silently truncates and `charAt` defaults to a blank. -/

/-- The message of Rust's out-of-bounds index panic. -/
def idxPanicMsg (len idx : Nat) : String :=
  "index out of bounds: the len is " ++ toString len ++
    " but the index is " ++ toString idx

/-- The message of Rust's out-of-range slice panic. -/
def rangePanicMsg (endIdx len : Nat) : String :=
  "range end index " ++ toString endIdx ++
    " out of range for slice of length " ++ toString len

/-- The half-open character range `[a, b)` of a line. -/
def slice (cs : List Char) (a b : Nat) : List Char :=
  (cs.drop a).take (b - a)

/-- The character at index `i`, blank when out of range. -/
def charAt (cs : List Char) (i : Nat) : Char :=
  cs.getD i ' '

/-- Removal of all embedded whitespace, mirroring
`split_whitespace().collect::<String>()` in `parse_number`. -/
def stripWs (cs : List Char) : List Char :=
  cs.filter (fun c => !c.isWhitespace)

/-- Whitespace trimming at both ends, mirroring Rust's `str::trim`. -/
def trimChars (cs : List Char) : List Char :=
  ((cs.dropWhile Char.isWhitespace).reverse.dropWhile Char.isWhitespace).reverse

/-- Numeric value of a digit string. -/
def digitsVal (ds : List Char) : Nat :=
  ds.foldl (fun a c => a * 10 + (c.toNat - 48)) 0

/-- The grammar of `usize::from_str`: an optional leading plus sign, one
or more decimal digits, value below 2^64 (the 64-bit overflow bound). -/
def parseUsize (input : List Char) : Option Nat :=
  let rest := match input with
    | '+' :: r => r
    | r => r
  if rest ≠ [] ∧ rest.all Char.isDigit ∧ digitsVal rest < 2 ^ 64 then
    some (digitsVal rest)
  else
    none

/-- The grammar of `isize::from_str`: optional sign, digits, 64-bit
signed range. -/
def parseIsize (input : List Char) : Option Int :=
  match input with
  | '-' :: r =>
    if r ≠ [] ∧ r.all Char.isDigit ∧ digitsVal r ≤ 2 ^ 63 then
      some (-(digitsVal r : Int))
    else none
  | '+' :: r =>
    if r ≠ [] ∧ r.all Char.isDigit ∧ digitsVal r < 2 ^ 63 then
      some (digitsVal r : Int)
    else none
  | r =>
    if r ≠ [] ∧ r.all Char.isDigit ∧ digitsVal r < 2 ^ 63 then
      some (digitsVal r : Int)
    else none

/-- Ten to an integer power, as a rational. -/
def pow10 (e : Int) : Rat :=
  if 0 ≤ e then ((10 : Rat) ^ e.toNat) else 1 / ((10 : Rat) ^ (-e).toNat)

/-- Exponent tail of a float literal: optional sign then one or more
digits, which must consume the rest of the input. -/
def parseExpTail (mant : Rat) (r : List Char) : Option Rat :=
  let (es, r4) : Int × List Char := match r with
    | '-' :: t => (-1, t)
    | '+' :: t => (1, t)
    | t => (1, t)
  if r4 ≠ [] ∧ r4.all Char.isDigit then
    some (mant * pow10 (es * (digitsVal r4 : Int)))
  else none

/-- The finite-decimal grammar of `f64::from_str`: optional sign, digits
with an optional fractional part (at least one digit overall), optional
exponent.  Values are exact rationals; the non-finite literals
(`inf`, `nan`) are not modelled and no claim depends on them. -/
def parseF64 (input : List Char) : Option Rat :=
  let (sign, r0) : Rat × List Char := match input with
    | '-' :: r => (-1, r)
    | '+' :: r => (1, r)
    | r => (1, r)
  let ip := r0.takeWhile Char.isDigit
  let r1 := r0.dropWhile Char.isDigit
  let (fp, r2) : List Char × List Char := match r1 with
    | '.' :: r => (r.takeWhile Char.isDigit, r.dropWhile Char.isDigit)
    | r => ([], r)
  if ip = [] ∧ fp = [] then none
  else
    let mant : Rat := sign * (digitsVal (ip ++ fp) : Rat) / ((10 : Rat) ^ fp.length)
    match r2 with
    | [] => some mant
    | 'e' :: r3 => parseExpTail mant r3
    | 'E' :: r3 => parseExpTail mant r3
    | _ => none

/-- Embedding of `parse_number`: strip all embedded whitespace, parse
with the target type's grammar; on failure return one
invalidating-content diagnostic carrying the field's context. -/
def parse_number {α : Type} (pf : List Char → Option α) (context : Context)
    (input : List Char) : Except PDBError α :=
  match pf (stripWs input) with
  | some v => Except.ok v
  | none => Except.error (PDBError.new ErrorLevel.InvalidatingError
      "Not a number"
      "The text presented is not a number of the right kind." context)

/-- Embedding of the `check` closures of the lexers: a failed field
parse records its diagnostic and substitutes the zero default. -/
def runCheck {α : Type} (zero : α) (r : Except PDBError α) : α × List PDBError :=
  match r with
  | Except.ok v => (v, [])
  | Except.error e => (zero, [e])

/-- Modelled from the spec: the static lookup table of legally-numbered
annotation (remark) type codes is an external collaborator; the claims
settled here do not depend on its exact contents, so it is approximated
by the numeric range of the wwPDB remark numbering. -/
def valid_remark_type_number (n : Nat) : Bool :=
  n ≤ 999

/-- Tagged record produced by the lexer for one line, mirroring the
source's `LexItem` variants as used by `parser.rs` (the declaring module
`lexitem.rs` is outside the provided source; fields and their order are
taken from the construction and destructuring sites in `parser.rs`). -/
inductive LexItem where
  | Remark (num : Nat) (text : String)
  | Atom (hetero : Bool) (serial_number : Nat) (atom_name : List Char)
      (alternate_location : Char) (residue_name : List Char) (chain_id : Char)
      (residue_serial_number : Nat) (insertion : Char)
      (x y z occupancy b_factor : Rat)
      (segment_id : List Char) (element : List Char) (charge : Int)
  | Anisou (serial_number : Nat) (atom_name : List Char)
      (alternate_location : Char) (residue_name : List Char) (chain_id : Char)
      (residue_serial_number : Nat) (insertion : Char)
      (factors : List (List Rat))
      (segment_id : List Char) (element : List Char) (charge : Int)
  | Model (number : Nat)
  | Scale (row : Nat) (values : List Rat)
  | OrigX (row : Nat) (values : List Rat)
  | MtriX (row : Nat) (serial : Nat) (values : List Rat) (given : Bool)
  | Crystal (a b c alpha beta gamma : Rat) (spacegroup : String) (z : Nat)
  | Seqres (ser_num : Nat) (chain_id : Char) (num_res : Nat) (values : List String)
  | Dbref (id_code : List Char) (chain_id : Char)
      (local_pos : Nat × Char × Nat × Char) (database : String)
      (database_accession : String) (database_id_code : String)
      (db_pos : Nat × Char × Nat × Char)
  | Seqadv (id_code : List Char) (chain_id : Char) (res_name : List Char)
      (seq_num : Nat) (insertion : Char) (database : String)
      (database_accession : String) (db_pos : Option (List Char × Nat))
      (comment : String)
  | Modres (id_code : List Char) (res_name : List Char) (chain_id : Char)
      (seq_num : Nat) (insertion : Char) (std_res : List Char) (comment : String)
  | Master (num_remark num_empty num_het num_helix num_sheet num_turn num_site
      num_xform num_coord num_ter num_connect num_seq : Nat)
  | TER
  | End
  | EndModel
  | Empty
deriving DecidableEq, Repr

/-- Embedding of `lex_remark`.  The source slices `chars[7..10]`
unconditionally, so a line shorter than 10 characters aborts the process
(the outer `Except.error` channel).  Otherwise the remark-type number is
checked against the reference table (strict-warning) and a remark text
longer than 70 characters is rejected through the fatal
single-diagnostic channel with loose-warning severity, discarding the
field diagnostics gathered so far, exactly as the early `return Err(..)`
in the source does. -/
def lex_remark (linenumber : Nat) (line : List Char) :
    Except String (Except PDBError (LexItem × List PDBError)) :=
  if line.length < 10 then
    Except.error (rangePanicMsg 10 line.length)
  else
    let (number, errs1) := runCheck 0 (parse_number parseUsize
      (Context.Line linenumber (String.mk line) 7 3) (slice line 7 10))
    let errs2 := if valid_remark_type_number number then [] else
      [PDBError.new ErrorLevel.StrictWarning "Remark type number invalid"
        "The remark-type-number is not valid, see wwPDB v3.30 for all valid numbers."
        (Context.Line linenumber (String.mk line) 7 3)]
    if 11 < line.length then
      if 70 < line.length - 11 then
        Except.ok (Except.error (PDBError.new ErrorLevel.LooseWarning
          "Remark too long"
          "The REMARK is too long, the max is 70 characters."
          (Context.Line linenumber (String.mk line) 11 (line.length - 11))))
      else
        Except.ok (Except.ok (LexItem.Remark number
          (String.mk (line.drop 11)), errs1 ++ errs2))
    else
      Except.ok (Except.ok (LexItem.Remark number "", errs1 ++ errs2))

/-- Embedding of `lex_model`: the serial number is the whitespace-trimmed
tail of the line after the tag. -/
def lex_model (linenumber : Nat) (line : List Char) : LexItem × List PDBError :=
  let (number, errs) := runCheck 0 (parse_number parseUsize
    (Context.Line linenumber (String.mk line) 6 (line.length - 6))
    (trimChars (line.drop 6)))
  (LexItem.Model number, errs)

/-- The ten basic fields shared by ATOM/HETATM/ANISOU records, as
returned by `lex_atom_basics`. -/
structure AtomBasics where
  serial_number : Nat
  atom_name : List Char
  alternate_location : Char
  residue_name : List Char
  chain_id : Char
  residue_serial_number : Nat
  insertion : Char
  segment_id : List Char
  element : List Char
  charge : Int
deriving DecidableEq, Repr

/-- The optional charge field of the shared atom fields: a digit and a
sign character at columns 78 and 79; a bad encoding yields an
invalidating diagnostic and charge 0.  The source guard
`chars.len() >= 79 && !(chars[78] == ' ' && chars[79] == ' ')`
short-circuits, so on a line of length exactly 79 the read of
`chars[79]` aborts the process when column 78 holds a blank (inside the
guard) or a digit (inside the sign check); when column 78 is neither,
the not-numeric branch is taken without touching column 79. -/
def chargeField (linenumber : Nat) (line : List Char) :
    Except String (Int × List PDBError) :=
  if 79 ≤ line.length then
    if charAt line 78 = ' ' then
      if line.length = 79 then
        Except.error (idxPanicMsg line.length 79)
      else if charAt line 79 = ' ' then
        Except.ok (0, [])
      else
        Except.ok (0, [PDBError.new ErrorLevel.InvalidatingError
          "Atom charge is not correct"
          "The charge is not numeric, it is defined to be [0-9][+-], so two characters in total."
          (Context.Line linenumber (String.mk line) 78 1)])
    else
      if !(charAt line 78).isDigit then
        Except.ok (0, [PDBError.new ErrorLevel.InvalidatingError
          "Atom charge is not correct"
          "The charge is not numeric, it is defined to be [0-9][+-], so two characters in total."
          (Context.Line linenumber (String.mk line) 78 1)])
      else if line.length = 79 then
        Except.error (idxPanicMsg line.length 79)
      else if charAt line 79 ≠ '-' ∧ charAt line 79 ≠ '+' then
        Except.ok (0, [PDBError.new ErrorLevel.InvalidatingError
          "Atom charge is not correct"
          "The charge is not properly signed, it is defined to be [0-9][+-], so two characters in total."
          (Context.Line linenumber (String.mk line) 79 1)])
      else
        Except.ok (if charAt line 79 = '-' then
            -(((charAt line 78).toNat - 48 : Nat) : Int)
          else (((charAt line 78).toNat - 48 : Nat) : Int), [])
  else Except.ok (0, [])

/-- Embedding of `lex_atom_basics`: fixed-column extraction of the
shared atom fields; segment id, element and charge are optional with
blank/zero defaults.  The optional reads are off-by-one in the source:
`chars[75]` under a `len >= 75` guard and `chars[77]` under `len >= 77`,
so a line of length exactly 75 or exactly 77 aborts the process. -/
def lex_atom_basics (linenumber : Nat) (line : List Char) :
    Except String (AtomBasics × List PDBError) :=
  let (serial_number, e1) := runCheck 0 (parse_number parseUsize
    (Context.Line linenumber (String.mk line) 7 4) (slice line 7 11))
  let atom_name := [charAt line 12, charAt line 13, charAt line 14, charAt line 15]
  let alternate_location := charAt line 16
  let residue_name := [charAt line 17, charAt line 18, charAt line 19]
  let chain_id := charAt line 21
  let (residue_serial_number, e2) := runCheck 0 (parse_number parseUsize
    (Context.Line linenumber (String.mk line) 22 4) (slice line 22 26))
  let insertion := charAt line 26
  if line.length = 75 then
    Except.error (idxPanicMsg line.length 75)
  else
    let segment_id := if 75 ≤ line.length then
      [charAt line 72, charAt line 73, charAt line 74, charAt line 75]
      else [' ', ' ', ' ', ' ']
    if line.length = 77 then
      Except.error (idxPanicMsg line.length 77)
    else
      let element := if 77 ≤ line.length then [charAt line 76, charAt line 77]
        else [' ', ' ']
      match chargeField linenumber line with
      | Except.error msg => Except.error msg
      | Except.ok (charge, e3) =>
        Except.ok (⟨serial_number, atom_name, alternate_location, residue_name,
          chain_id, residue_serial_number, insertion, segment_id, element,
          charge⟩, e1 ++ e2 ++ e3)

/-- Embedding of `lex_atom`: a line shorter than 54 characters is
rejected outright with one breaking-severity diagnostic; otherwise the
coordinates are extracted (zero default on numeric failure), occupancy
and b-factor are optional with defaults 1.0 and 0.0, and the basics
follow. -/
def lex_atom (linenumber : Nat) (line : List Char) (hetero : Bool) :
    Except String (Except PDBError (LexItem × List PDBError)) :=
  if line.length < 54 then
    Except.ok (Except.error (PDBError.new ErrorLevel.BreakingError
      "Atom line too short"
      "This line is too short to contain all necessary elements (up to `z` at least)."
      (Context.FullLine linenumber (String.mk line))))
  else
    let (x, ex) := runCheck (0 : Rat) (parse_number parseF64
      (Context.Line linenumber (String.mk line) 30 8) (slice line 30 38))
    let (y, ey) := runCheck (0 : Rat) (parse_number parseF64
      (Context.Line linenumber (String.mk line) 38 8) (slice line 38 46))
    let (z, ez) := runCheck (0 : Rat) (parse_number parseF64
      (Context.Line linenumber (String.mk line) 46 8) (slice line 46 54))
    let (occupancy, eo) := if 60 ≤ line.length then
      runCheck (0 : Rat) (parse_number parseF64
        (Context.Line linenumber (String.mk line) 54 6) (slice line 54 60))
      else (1, [])
    let (b_factor, eb) := if 66 ≤ line.length then
      runCheck (0 : Rat) (parse_number parseF64
        (Context.Line linenumber (String.mk line) 60 6) (slice line 60 66))
      else (0, [])
    match lex_atom_basics linenumber line with
    | Except.error msg => Except.error msg
    | Except.ok (basics, basic_errors) =>
      Except.ok (Except.ok (LexItem.Atom hetero basics.serial_number
        basics.atom_name basics.alternate_location basics.residue_name
        basics.chain_id basics.residue_serial_number basics.insertion
        x y z occupancy b_factor basics.segment_id basics.element
        basics.charge, ex ++ ey ++ ez ++ eo ++ eb ++ basic_errors))

/-- Embedding of `lex_anisou`: six seven-wide integer factors, divided
by 10000 into two rows of three, then the shared basics (whose
off-by-one reads can abort the process, propagated here). -/
def lex_anisou (linenumber : Nat) (line : List Char) :
    Except String (LexItem × List PDBError) :=
  let (ai, e1) := runCheck (0 : Int) (parse_number parseIsize
    (Context.Line linenumber (String.mk line) 28 7) (slice line 28 35))
  let (bi, e2) := runCheck (0 : Int) (parse_number parseIsize
    (Context.Line linenumber (String.mk line) 35 7) (slice line 35 42))
  let (ci, e3) := runCheck (0 : Int) (parse_number parseIsize
    (Context.Line linenumber (String.mk line) 42 7) (slice line 42 49))
  let (di, e4) := runCheck (0 : Int) (parse_number parseIsize
    (Context.Line linenumber (String.mk line) 49 7) (slice line 49 56))
  let (ei, e5) := runCheck (0 : Int) (parse_number parseIsize
    (Context.Line linenumber (String.mk line) 56 7) (slice line 56 63))
  let (fi, e6) := runCheck (0 : Int) (parse_number parseIsize
    (Context.Line linenumber (String.mk line) 63 7) (slice line 63 70))
  let factors : List (List Rat) :=
    [[(ai : Rat) / 10000, (bi : Rat) / 10000, (ci : Rat) / 10000],
     [(di : Rat) / 10000, (ei : Rat) / 10000, (fi : Rat) / 10000]]
  match lex_atom_basics linenumber line with
  | Except.error msg => Except.error msg
  | Except.ok (basics, basic_errors) =>
    Except.ok (LexItem.Anisou basics.serial_number basics.atom_name
      basics.alternate_location basics.residue_name basics.chain_id
      basics.residue_serial_number basics.insertion factors
      basics.segment_id basics.element basics.charge,
     e1 ++ e2 ++ e3 ++ e4 ++ e5 ++ e6 ++ basic_errors)

/-- Embedding of `lex_transformation`: three ten-wide row coefficients
and a ten-wide translation. -/
def lex_transformation (linenumber : Nat) (line : List Char) :
    List Rat × List PDBError :=
  let (a, e1) := runCheck (0 : Rat) (parse_number parseF64
    (Context.Line linenumber (String.mk line) 10 10) (slice line 10 20))
  let (b, e2) := runCheck (0 : Rat) (parse_number parseF64
    (Context.Line linenumber (String.mk line) 20 10) (slice line 20 30))
  let (c, e3) := runCheck (0 : Rat) (parse_number parseF64
    (Context.Line linenumber (String.mk line) 30 10) (slice line 30 40))
  let (d, e4) := runCheck (0 : Rat) (parse_number parseF64
    (Context.Line linenumber (String.mk line) 45 10) (slice line 45 55))
  ([a, b, c, d], e1 ++ e2 ++ e3 ++ e4)

/-- Embedding of `lex_scale`. -/
def lex_scale (linenumber : Nat) (line : List Char) (row : Nat) :
    LexItem × List PDBError :=
  let (data, errors) := lex_transformation linenumber line
  (LexItem.Scale row data, errors)

/-- Embedding of `lex_origx`. -/
def lex_origx (linenumber : Nat) (line : List Char) (row : Nat) :
    LexItem × List PDBError :=
  let (data, errors) := lex_transformation linenumber line
  (LexItem.OrigX row data, errors)

/-- Embedding of `lex_mtrix`: operator serial number, the transformation
row, and the given-flag read from column 59. -/
def lex_mtrix (linenumber : Nat) (line : List Char) (row : Nat) :
    LexItem × List PDBError :=
  let (ser, e1) := runCheck 0 (parse_number parseUsize
    (Context.Line linenumber (String.mk line) 7 4) (slice line 7 10))
  let (data, e2) := lex_transformation linenumber line
  let given := if 60 ≤ line.length then charAt line 59 == '1' else false
  (LexItem.MtriX row ser data given, e1 ++ e2)

/-- Embedding of `lex_cryst`: cell lengths, cell angles, space-group
text at columns `[55, min 66 len)` and the optional z value. -/
def lex_cryst (linenumber : Nat) (line : List Char) : LexItem × List PDBError :=
  let (a, e1) := runCheck (0 : Rat) (parse_number parseF64
    (Context.Line linenumber (String.mk line) 6 9) (slice line 6 15))
  let (b, e2) := runCheck (0 : Rat) (parse_number parseF64
    (Context.Line linenumber (String.mk line) 15 9) (slice line 15 24))
  let (c, e3) := runCheck (0 : Rat) (parse_number parseF64
    (Context.Line linenumber (String.mk line) 24 9) (slice line 24 33))
  let (alpha, e4) := runCheck (0 : Rat) (parse_number parseF64
    (Context.Line linenumber (String.mk line) 33 7) (slice line 33 40))
  let (beta, e5) := runCheck (0 : Rat) (parse_number parseF64
    (Context.Line linenumber (String.mk line) 40 7) (slice line 40 47))
  let (gamma, e6) := runCheck (0 : Rat) (parse_number parseF64
    (Context.Line linenumber (String.mk line) 47 7) (slice line 47 54))
  let spacegroup := String.mk (slice line 55 (min 66 line.length))
  let (z, e7) := if 66 < line.length then
    runCheck 0 (parse_number parseUsize
      (Context.Line linenumber (String.mk line) 66 (line.length - 66))
      (line.drop 66))
    else (1, [])
  (LexItem.Crystal a b c alpha beta gamma spacegroup z,
   e1 ++ e2 ++ e3 ++ e4 ++ e5 ++ e6 ++ e7)

/-- Embedding of `lex_master`: twelve five-wide counts starting at
column 10. -/
def lex_master (linenumber : Nat) (line : List Char) : LexItem × List PDBError :=
  let f := fun (s : Nat) => runCheck 0 (parse_number parseUsize
    (Context.Line linenumber (String.mk line) s 5) (slice line s (s + 5)))
  let (num_remark, e1) := f 10
  let (num_empty, e2) := f 15
  let (num_het, e3) := f 20
  let (num_helix, e4) := f 25
  let (num_sheet, e5) := f 30
  let (num_turn, e6) := f 35
  let (num_site, e7) := f 40
  let (num_xform, e8) := f 45
  let (num_coord, e9) := f 50
  let (num_ter, e10) := f 55
  let (num_connect, e11) := f 60
  let (num_seq, e12) := f 65
  (LexItem.Master num_remark num_empty num_het num_helix num_sheet num_turn
    num_site num_xform num_coord num_ter num_connect num_seq,
   e1 ++ e2 ++ e3 ++ e4 ++ e5 ++ e6 ++ e7 ++ e8 ++ e9 ++ e10 ++ e11 ++ e12)

/-- Embedding of `lex_seqres`: serial, chain id, declared total and the
stride-4 three-character monomer codes from column 19 up to column 71,
stopping at the first blank code. -/
def lex_seqres (linenumber : Nat) (line : List Char) : LexItem × List PDBError :=
  let (ser_num, e1) := runCheck 0 (parse_number parseUsize
    (Context.Line linenumber (String.mk line) 7 3) (slice line 7 10))
  let chain_id := charAt line 11
  let (num_res, e2) := runCheck 0 (parse_number parseUsize
    (Context.Line linenumber (String.mk line) 13 4) (slice line 13 17))
  let maxPos := min line.length 71
  let values := (((List.range 13).filter (fun k => 19 + 4 * k + 3 < maxPos)).map
      (fun k => String.mk (slice line (19 + 4 * k) (19 + 4 * k + 3)))).takeWhile
    (fun s => s ≠ "   ")
  (LexItem.Seqres ser_num chain_id num_res values, e1 ++ e2)

/-- Embedding of `lex_dbref`: identity code, chain, local numbering range
with insertion codes, database name/accession/id, and the database
numbering range. -/
def lex_dbref (linenumber : Nat) (line : List Char) : LexItem × List PDBError :=
  let id_code := [charAt line 7, charAt line 8, charAt line 9, charAt line 10]
  let chain_id := charAt line 12
  let (seq_begin, e1) := runCheck 0 (parse_number parseUsize
    (Context.Line linenumber (String.mk line) 14 4) (slice line 14 18))
  let insert_begin := charAt line 18
  let (seq_end, e2) := runCheck 0 (parse_number parseUsize
    (Context.Line linenumber (String.mk line) 21 4) (slice line 21 24))
  let insert_end := charAt line 24
  let database := String.mk (trimChars (slice line 26 32))
  let database_accession := String.mk (trimChars (slice line 33 41))
  let database_id_code := String.mk (trimChars (slice line 42 54))
  let (database_seq_begin, e3) := runCheck 0 (parse_number parseUsize
    (Context.Line linenumber (String.mk line) 55 5) (slice line 55 60))
  let database_insert_begin := charAt line 60
  let (database_seq_end, e4) := runCheck 0 (parse_number parseUsize
    (Context.Line linenumber (String.mk line) 62 5) (slice line 62 67))
  let database_insert_end := charAt line 67
  (LexItem.Dbref id_code chain_id (seq_begin, insert_begin, seq_end, insert_end)
    database database_accession database_id_code
    (database_seq_begin, database_insert_begin, database_seq_end,
      database_insert_end),
   e1 ++ e2 ++ e3 ++ e4)

/-- Embedding of `lex_seqadv`: identity fields, then an optional database
residue position that is present exactly when columns `[39, 48)` are not
all blank, then the free-text comment. -/
def lex_seqadv (linenumber : Nat) (line : List Char) : LexItem × List PDBError :=
  let id_code := [charAt line 7, charAt line 8, charAt line 9, charAt line 10]
  let res_name := [charAt line 12, charAt line 13, charAt line 14]
  let chain_id := charAt line 16
  let (seq_num, e1) := runCheck 0 (parse_number parseUsize
    (Context.Line linenumber (String.mk line) 18 4) (slice line 18 22))
  let insertion := charAt line 22
  let database := String.mk (trimChars (slice line 24 28))
  let database_accession := String.mk (trimChars (slice line 29 38))
  let (db_pos, e2) : Option (List Char × Nat) × List PDBError :=
    if !((slice line 39 48).all (fun c => c = ' ')) then
      let db_res_name := [charAt line 39, charAt line 40, charAt line 41]
      let (db_seq_num, e) := runCheck 0 (parse_number parseUsize
        (Context.Line linenumber (String.mk line) 43 5) (slice line 43 48))
      (some (db_res_name, db_seq_num), e)
    else (none, [])
  let comment := String.mk (trimChars (line.drop 49))
  (LexItem.Seqadv id_code chain_id res_name seq_num insertion database
    database_accession db_pos comment, e1 ++ e2)

/-- Embedding of `lex_modres`. -/
def lex_modres (linenumber : Nat) (line : List Char) : LexItem × List PDBError :=
  let id_code := [charAt line 7, charAt line 8, charAt line 9, charAt line 10]
  let res_name := [charAt line 12, charAt line 13, charAt line 14]
  let chain_id := charAt line 16
  let (seq_num, e1) := runCheck 0 (parse_number parseUsize
    (Context.Line linenumber (String.mk line) 18 4) (slice line 18 22))
  let insertion := charAt line 22
  let std_res := [charAt line 24, charAt line 25, charAt line 26]
  let comment := String.mk (trimChars (line.drop 29))
  (LexItem.Modres id_code res_name chain_id seq_num insertion std_res comment, e1)

/-- Embedding of `lex_line`: dispatch on the six-character leading tag
(three-character fallback for the short terminator tags, blank-line
case), with a low-severity unrecognized-tag diagnostic otherwise.  The
outer `Except String` is the process-abort channel of the lexers whose
source indexing can go out of bounds; the inner `Except PDBError` is the
source's fatal single-diagnostic result. -/
def lex_line (line : List Char) (linenumber : Nat) :
    Except String (Except PDBError (LexItem × List PDBError)) :=
  if 6 < line.length then
    let tag := line.take 6
    if tag = "REMARK".toList then lex_remark linenumber line
    else if tag = "ATOM  ".toList then lex_atom linenumber line false
    else if tag = "ANISOU".toList then
      Except.map Except.ok (lex_anisou linenumber line)
    else if tag = "HETATM".toList then lex_atom linenumber line true
    else if tag = "CRYST1".toList then
      Except.ok (Except.ok (lex_cryst linenumber line))
    else if tag = "SCALE1".toList then
      Except.ok (Except.ok (lex_scale linenumber line 0))
    else if tag = "SCALE2".toList then
      Except.ok (Except.ok (lex_scale linenumber line 1))
    else if tag = "SCALE3".toList then
      Except.ok (Except.ok (lex_scale linenumber line 2))
    else if tag = "ORIGX1".toList then
      Except.ok (Except.ok (lex_origx linenumber line 0))
    else if tag = "ORIGX2".toList then
      Except.ok (Except.ok (lex_origx linenumber line 1))
    else if tag = "ORIGX3".toList then
      Except.ok (Except.ok (lex_origx linenumber line 2))
    else if tag = "MTRIX1".toList then
      Except.ok (Except.ok (lex_mtrix linenumber line 0))
    else if tag = "MTRIX2".toList then
      Except.ok (Except.ok (lex_mtrix linenumber line 1))
    else if tag = "MTRIX3".toList then
      Except.ok (Except.ok (lex_mtrix linenumber line 2))
    else if tag = "MODEL ".toList then
      Except.ok (Except.ok (lex_model linenumber line))
    else if tag = "MASTER".toList then
      Except.ok (Except.ok (lex_master linenumber line))
    else if tag = "DBREF ".toList then
      Except.ok (Except.ok (lex_dbref linenumber line))
    else if tag = "SEQRES".toList then
      Except.ok (Except.ok (lex_seqres linenumber line))
    else if tag = "SEQADV".toList then
      Except.ok (Except.ok (lex_seqadv linenumber line))
    else if tag = "MODRES".toList then
      Except.ok (Except.ok (lex_modres linenumber line))
    else if tag = "ENDMDL".toList then Except.ok (Except.ok (LexItem.EndModel, []))
    else if tag = "TER   ".toList then Except.ok (Except.ok (LexItem.TER, []))
    else if tag = "END   ".toList then Except.ok (Except.ok (LexItem.End, []))
    else Except.ok (Except.error (PDBError.new ErrorLevel.GeneralWarning
      "Could not recognise tag."
      "Could not parse the tag above, it is possible that it is valid PDB but just not supported right now."
      (Context.FullLine linenumber (String.mk line))))
  else if 2 < line.length then
    if line.take 3 = "TER".toList then Except.ok (Except.ok (LexItem.TER, []))
    else if line.take 3 = "END".toList then Except.ok (Except.ok (LexItem.End, []))
    else Except.ok (Except.error (PDBError.new ErrorLevel.GeneralWarning
      "Could not recognise tag."
      "Could not parse the tag above, it is possible that it is valid PDB but just not supported right now."
      (Context.FullLine linenumber (String.mk line))))
  else if line ≠ [] then
    Except.ok (Except.error (PDBError.new ErrorLevel.GeneralWarning
      "Could not recognise tag."
      "Could not parse the tag above, it is possible that it is valid PDB but just not supported right now."
      (Context.FullLine linenumber (String.mk line))))
  else
    Except.ok (Except.ok (LexItem.Empty, []))

/-! The hierarchical data model.  Its types and accessors live outside
the provided source (`crate::structs`); they are modelled from the
specification, which describes models containing chains (hetero and
standard residues distinguished only by which insertion call was used),
chains as ordered-by-serial-number residue lists, residues as ordered
atom lists, and fallible atom/residue constructors that reject
disallowed characters. -/

/-- Modelled from the spec: the character classes accepted by the
fallible constructors; disallowed characters in a constructed identity
make construction fail. -/
def validIdentityChar (c : Char) : Bool :=
  c.isAlphanum || c == ' '

/-- Modelled from the spec: one atom with its extracted fields and the
optional anisotropic temperature factors set later by ANISOU records. -/
structure Atom where
  serial_number : Nat
  atom_name : List Char
  x : Rat
  y : Rat
  z : Rat
  occupancy : Rat
  b_factor : Rat
  element : List Char
  charge : Int
  anisotropic_temperature_factors : Option (List (List Rat))
deriving DecidableEq, Repr

/-- Modelled from the spec: the fallible atom constructor, rejecting
disallowed characters in the name and element. -/
def Atom.new (serial_number : Nat) (atom_name : List Char)
    (x y z occupancy b_factor : Rat) (element : List Char) (charge : Int) :
    Option Atom :=
  if atom_name.all validIdentityChar && element.all validIdentityChar then
    some ⟨serial_number, atom_name, x, y, z, occupancy, b_factor, element,
      charge, none⟩
  else none

/-- Setter mirroring `set_anisotropic_temperature_factors`. -/
def Atom.set_anisotropic_temperature_factors (a : Atom)
    (factors : List (List Rat)) : Atom :=
  { a with anisotropic_temperature_factors := some factors }

/-- Modelled from the spec: one residue, identified by a 3-letter code
and a serial number, holding an ordered atom list and the optional
modification applied by MODRES records. -/
structure Residue where
  serial_number : Nat
  res_name : List Char
  atoms : List Atom
  modification : Option (List Char × String)
deriving DecidableEq, Repr

/-- Modelled from the spec: the fallible residue constructor, rejecting
disallowed characters in the 3-letter identity. -/
def Residue.new (serial_number : Nat) (res_name : List Char)
    (atom : Option Atom) : Option Residue :=
  if res_name.all validIdentityChar then
    some ⟨serial_number, res_name,
      (match atom with | some a => [a] | none => []), none⟩
  else none

/-- The residue's identity as a trimmed string, mirroring `Residue::id`. -/
def Residue.id (r : Residue) : String :=
  String.mk (trimChars r.res_name)

/-- The residue's raw 3-character identity, mirroring `Residue::id_array`. -/
def Residue.id_array (r : Residue) : List Char :=
  r.res_name

/-- Modelled from the spec: the fallible modification setter used by the
modification applier; a rejection (disallowed characters in the standard
residue name) is a typed failure, not an abort. -/
def Residue.set_modification (r : Residue) (m : List Char × String) :
    Except String Residue :=
  if m.1.all validIdentityChar then Except.ok { r with modification := some m }
  else Except.error "Invalid characters in the modification"

/-- Modelled from the spec: a local or database numbering range of a
database cross-reference (start and stop positions with insertion
codes). -/
structure SequencePosition where
  start : Nat
  start_insert : Char
  stop : Nat
  stop_insert : Char
deriving DecidableEq, Repr

/-- Constructor mirroring `SequencePosition::from_tuple`. -/
def SequencePosition.from_tuple (t : Nat × Char × Nat × Char) :
    SequencePosition :=
  ⟨t.1, t.2.1, t.2.2.1, t.2.2.2⟩

/-- Modelled from the spec: one documented difference between the
structure's sequence and the referenced database sequence. -/
structure SequenceDifference where
  residue : List Char × Nat
  database_residue : Option (List Char × Nat)
  comment : String
deriving DecidableEq, Repr

/-- Constructor mirroring `SequenceDifference::new`. -/
def SequenceDifference.new (residue : List Char × Nat)
    (database_residue : Option (List Char × Nat)) (comment : String) :
    SequenceDifference :=
  ⟨residue, database_residue, comment⟩

/-- Modelled from the spec: a database cross-reference carrying the
database identity, the chain's local numbering range, the database
numbering range, and an ordered list of sequence differences. -/
structure DatabaseReference where
  database : String × String × String
  pdb_position : SequencePosition
  database_position : SequencePosition
  differences : List SequenceDifference
deriving DecidableEq, Repr

/-- Constructor mirroring `DatabaseReference::new` (differences start
empty). -/
def DatabaseReference.new (database : String × String × String)
    (pdb_position database_position : SequencePosition) : DatabaseReference :=
  ⟨database, pdb_position, database_position, []⟩

/-- Modelled from the spec: a labeled chain holding its
ordered-by-serial-number residues and the optional attached database
reference. -/
structure Chain where
  id : Char
  residues : List Residue
  database_reference : Option DatabaseReference
deriving DecidableEq, Repr

/-- The atoms of a residue list, in residue order then atom order. -/
def residuesAtoms : List Residue → List Atom
  | [] => []
  | r :: rest => r.atoms ++ residuesAtoms rest

/-- The atoms of a chain in traversal order. -/
def chainAtoms (c : Chain) : List Atom :=
  residuesAtoms c.residues

/-- The atoms of a chain list in traversal order. -/
def chainsAtoms : List Chain → List Atom
  | [] => []
  | c :: rest => chainAtoms c ++ chainsAtoms rest

/-- Number of residues of a chain, mirroring `residue_count`. -/
def Chain.residue_count (c : Chain) : Nat :=
  c.residues.length

/-- Number of atoms of a chain. -/
def Chain.atom_count (c : Chain) : Nat :=
  (chainAtoms c).length

/-- Modelled from the spec: insertion of a residue at the correct sorted
position of the ascending-by-serial-number residue list (the invariant
"chain residues are kept in ascending numeric order"). -/
def insertResidueSorted (r : Residue) : List Residue → List Residue
  | [] => [r]
  | x :: xs =>
    if r.serial_number < x.serial_number then r :: x :: xs
    else x :: insertResidueSorted r xs

/-- Modelled from the spec: `Chain::insert_residue` places the
synthesized residue at the correct sorted position. -/
def Chain.insert_residue (c : Chain) (r : Residue) : Chain :=
  { c with residues := insertResidueSorted r c.residues }

/-- Modelled from the spec: `Chain::add_residue` appends the residue at
the end of the residue list. -/
def Chain.add_residue (c : Chain) (r : Residue) : Chain :=
  { c with residues := c.residues ++ [r] }

/-- Appending an atom to the first residue with the given serial
number. -/
def addAtomToResidue (serial : Nat) (atom : Atom) :
    List Residue → List Residue
  | [] => []
  | r :: rest =>
    if r.serial_number == serial then
      { r with atoms := r.atoms ++ [atom] } :: rest
    else r :: addAtomToResidue serial atom rest

/-- Modelled from the spec: insertion of an atom into a chain under a
residue serial number and residue name, creating the residue on demand
at the correct sorted position. -/
def Chain.add_atom (c : Chain) (atom : Atom) (residue_serial_number : Nat)
    (residue_name : List Char) : Chain :=
  if c.residues.any (fun r => r.serial_number == residue_serial_number) then
    { c with residues := addAtomToResidue residue_serial_number atom c.residues }
  else
    { c with residues := (insertResidueSorted
        ⟨residue_serial_number, residue_name, [atom], none⟩ c.residues) }

/-- Modelled from the spec: one structural model; hetero and standard
residues are distinguished only by which insertion call was used, kept
here as two chain collections without a stored flag on the chain
itself. -/
structure Model where
  serial_number : Nat
  chains : List Chain
  hetero_chains : List Chain
deriving DecidableEq, Repr

/-- Constructor mirroring `Model::new`. -/
def Model.new (serial_number : Nat) : Model :=
  ⟨serial_number, [], []⟩

/-- Insertion of an atom into the chain with the given id (created on
demand at the end of the chain list). -/
def addAtomToChains (atom : Atom) (chain_id : Char)
    (residue_serial_number : Nat) (residue_name : List Char) :
    List Chain → List Chain
  | [] => [Chain.add_atom ⟨chain_id, [], none⟩ atom residue_serial_number
      residue_name]
  | c :: rest =>
    if c.id == chain_id then
      Chain.add_atom c atom residue_serial_number residue_name :: rest
    else c :: addAtomToChains atom chain_id residue_serial_number
      residue_name rest

/-- Modelled from the spec: `Model::add_atom` inserts under the given
chain id / residue serial / residue name, creating the chain and residue
on demand. -/
def Model.add_atom (m : Model) (atom : Atom) (chain_id : Char)
    (residue_serial_number : Nat) (residue_name : List Char) : Model :=
  { m with chains := (addAtomToChains atom chain_id residue_serial_number
      residue_name m.chains) }

/-- Modelled from the spec: `Model::add_hetero_atom` is the hetero
insertion call, targeting the hetero chain collection. -/
def Model.add_hetero_atom (m : Model) (atom : Atom) (chain_id : Char)
    (residue_serial_number : Nat) (residue_name : List Char) : Model :=
  { m with hetero_chains := (addAtomToChains atom chain_id
      residue_serial_number residue_name m.hetero_chains) }

/-- All atoms of a structural model in traversal order (most recently
inserted atoms last within their chain). -/
def Model.all_atoms (m : Model) : List Atom :=
  chainsAtoms m.chains ++ chainsAtoms m.hetero_chains

/-- Modelled from the spec: the number of atoms the accumulator holds
(the spec specifies the model-boundary check only as "holds at least one
atom", with no narrower count). -/
def Model.atom_count (m : Model) : Nat :=
  m.all_atoms.length

/-- Modelled from the spec: the total number of atoms of a structural
model across both insertion kinds. -/
def Model.total_atom_count (m : Model) : Nat :=
  m.all_atoms.length

/-! The ANISOU lookup scans the current accumulator's atoms from
most-recently-inserted backward (`all_atoms_mut().rev()`) and updates
the first atom whose serial number matches; functionally this updates
the last matching atom of the forward traversal, preferring the hetero
collection which sits later in the traversal. -/

/-- Update of the last atom of a list whose serial number matches,
`none` when no atom matches. -/
def updLastAtom (serial : Nat) (factors : List (List Rat)) :
    List Atom → Option (List Atom)
  | [] => none
  | a :: rest =>
    match updLastAtom serial factors rest with
    | some rest2 => some (a :: rest2)
    | none =>
      if a.serial_number == serial then
        some (a.set_anisotropic_temperature_factors factors :: rest)
      else none

/-- Update of the last matching atom inside a residue list. -/
def updLastResidue (serial : Nat) (factors : List (List Rat)) :
    List Residue → Option (List Residue)
  | [] => none
  | r :: rest =>
    match updLastResidue serial factors rest with
    | some rest2 => some (r :: rest2)
    | none =>
      (updLastAtom serial factors r.atoms).map
        (fun ats => { r with atoms := ats } :: rest)

/-- Update of the last matching atom inside a chain list. -/
def updLastChain (serial : Nat) (factors : List (List Rat)) :
    List Chain → Option (List Chain)
  | [] => none
  | c :: rest =>
    match updLastChain serial factors rest with
    | some rest2 => some (c :: rest2)
    | none =>
      (updLastResidue serial factors c.residues).map
        (fun rs => { c with residues := rs } :: rest)

/-- Embedding of the ANISOU reverse scan over the accumulator: the atom
receiving the factors is the first match of the backward traversal
(hetero collection first, being last in forward order), `none` when no
atom's serial number matches. -/
def Model.set_anisou (m : Model) (serial : Nat)
    (factors : List (List Rat)) : Option Model :=
  match updLastChain serial factors m.hetero_chains with
  | some h => some { m with hetero_chains := h }
  | none =>
    (updLastChain serial factors m.chains).map
      (fun cs => { m with chains := cs })

/-- Modelled from the spec: the unit cell (three lengths, three
angles). -/
structure UnitCell where
  a : Rat
  b : Rat
  c : Rat
  alpha : Rat
  beta : Rat
  gamma : Rat
deriving DecidableEq, Repr

/-- Constructor mirroring `UnitCell::new`. -/
def UnitCell.new (a b c alpha beta gamma : Rat) : UnitCell :=
  ⟨a, b, c, alpha, beta, gamma⟩

/-- Modelled from the spec: the table of recognized space-group names is
an external lookup; a representative subset suffices because the claims
only need that some names are recognized and others are not. -/
def recognizedSpaceGroups : List String :=
  ["P 1", "P 1 21 1", "C 1 2 1", "P 21 21 21", "C 2 2 21", "P 41 21 2",
   "P 43 21 2", "I 4", "H 3", "P 61 2 2"]

/-- Modelled from the spec: a symmetry descriptor parsed from
space-group text. -/
structure Symmetry where
  space_group : String
deriving DecidableEq, Repr

/-- Modelled from the spec: `Symmetry::new` recognizes a space-group
name (surrounding blanks ignored) or reports failure by returning
nothing; "an unrecognized space group must surface as a content error,
not terminate the process". -/
def Symmetry.new (spacegroup : String) : Option Symmetry :=
  let trimmed := String.mk (trimChars spacegroup.toList)
  if recognizedSpaceGroups.contains trimmed then some ⟨trimmed⟩ else none

/-- Modelled from the spec: a 3x4 transform accumulating its three rows
independently (used for both the identity transform ORIGX and the scale
transform SCALE); a transform is valid when fully populated. -/
structure TMatrix where
  row0 : Option (List Rat)
  row1 : Option (List Rat)
  row2 : Option (List Rat)
deriving DecidableEq, Repr

/-- Constructor mirroring `Scale::new` / `OrigX::new`: no rows set. -/
def TMatrix.new : TMatrix :=
  ⟨none, none, none⟩

/-- Row setter mirroring `set_row`. -/
def TMatrix.set_row (t : TMatrix) (n : Nat) (row : List Rat) : TMatrix :=
  match n with
  | 0 => { t with row0 := some row }
  | 1 => { t with row1 := some row }
  | _ => { t with row2 := some row }

/-- Modelled from the spec: a transform is valid when fully populated
(all three rows set). -/
def TMatrix.valid (t : TMatrix) : Bool :=
  t.row0.isSome && t.row1.isSome && t.row2.isSome

/-- Modelled from the spec: a symmetry-operator transform keyed by
serial number, accumulating its three rows independently, with the
given-flag `contained`. -/
structure MtriX where
  serial_number : Nat
  row0 : Option (List Rat)
  row1 : Option (List Rat)
  row2 : Option (List Rat)
  contained : Bool
deriving DecidableEq, Repr

/-- Constructor mirroring `MtriX::new`. -/
def MtriX.new : MtriX :=
  ⟨0, none, none, none, false⟩

/-- Row setter mirroring `MtriX::set_row`. -/
def MtriX.set_row (t : MtriX) (n : Nat) (row : List Rat) : MtriX :=
  match n with
  | 0 => { t with row0 := some row }
  | 1 => { t with row1 := some row }
  | _ => { t with row2 := some row }

/-- Modelled from the spec: a symmetry operator is valid when fully
populated. -/
def MtriX.valid (t : MtriX) : Bool :=
  t.row0.isSome && t.row1.isSome && t.row2.isSome

/-- Modelled from the spec: the whole hierarchical model handed to the
caller: comments, the singleton transforms, the symmetry operators, the
unit cell and symmetry descriptor, and the structural models. -/
structure PDB where
  remarks : List (Nat × String)
  scale : Option TMatrix
  origx : Option TMatrix
  mtrix : List MtriX
  unit_cell : Option UnitCell
  symmetry : Option Symmetry
  models : List Model
deriving DecidableEq, Repr

/-- Constructor mirroring `PDB::new`: everything empty. -/
def PDB.new : PDB :=
  ⟨[], none, none, [], none, none, []⟩

/-- Comment append mirroring `add_remark`. -/
def PDB.add_remark (p : PDB) (num : Nat) (text : String) : PDB :=
  { p with remarks := p.remarks ++ [(num, text)] }

/-- Comment count mirroring `remark_count`. -/
def PDB.remark_count (p : PDB) : Nat :=
  p.remarks.length

/-- Structural-model append mirroring `add_model`. -/
def PDB.add_model (p : PDB) (m : Model) : PDB :=
  { p with models := p.models ++ [m] }

/-- Total atoms across all structural models, mirroring
`total_atom_count`. -/
def PDB.total_atom_count (p : PDB) : Nat :=
  (p.models.map Model.total_atom_count).sum

/-- Validity of an optional transform (absent transforms are not
valid). -/
def optValid (o : Option TMatrix) : Bool :=
  match o with
  | some t => t.valid
  | none => false

/-- Update of the first symmetry operator with a matching serial number,
`none` when no operator matches (mirroring the MTRIXn search loop). -/
def updMtrixList (n : Nat) (ser : Nat) (row : List Rat) (given : Bool) :
    List MtriX → Option (List MtriX)
  | [] => none
  | t :: rest =>
    if t.serial_number == ser then
      some ({ (t.set_row n row) with contained := given } :: rest)
    else
      (updMtrixList n ser row given rest).map (t :: ·)

/-- The normal chains of all structural models in model order, the
traversal behind the source's `pdb.chains_mut()`; modelled from the
spec, which attaches references and runs reconciliation per chain by
id. -/
def modelsChains : List Model → List Chain
  | [] => []
  | m :: rest => m.chains ++ modelsChains rest

/-- First chain with the given id, mirroring
`chains_mut().find(|c| c.id() == id)`. -/
def PDB.find_chain (p : PDB) (id : Char) : Option Chain :=
  (modelsChains p.models).find? (fun c => c.id == id)

/-- Application of a function to the first chain with the given id
inside a chain list, `none` when absent. -/
def modifyFirstChain (id : Char) (f : Chain → Chain) :
    List Chain → Option (List Chain)
  | [] => none
  | c :: rest =>
    if c.id == id then some (f c :: rest)
    else (modifyFirstChain id f rest).map (c :: ·)

/-- Application of a function to the first chain with the given id
across the structural models, `none` when absent. -/
def modifyChainInModels (id : Char) (f : Chain → Chain) :
    List Model → Option (List Model)
  | [] => none
  | m :: rest =>
    match modifyFirstChain id f m.chains with
    | some cs => some ({ m with chains := cs } :: rest)
    | none => (modifyChainInModels id f rest).map (m :: ·)

/-- Mutation of the first chain with the given id (no-op when the id is
absent, matching the source's silent drop of unmatched ids). -/
def PDB.modify_chain (p : PDB) (id : Char) (f : Chain → Chain) : PDB :=
  match modifyChainInModels id f p.models with
  | some ms => { p with models := ms }
  | none => p

/-- Modelled from the spec: the final whole-structure validator is an
external collaborator (explicitly out of scope), specified only as
taking the assembled model and returning additional diagnostics; it is
modelled as contributing none, and no claim depends on its contents. -/
def validate (_pdb : PDB) : List PDBError :=
  []

/-! The stream assembler: the scan state and the per-record fold of
`parse`, followed by the post-scan passes `validate_seqres` and
`add_modifications` and the final threshold decision.  Process aborts of
the source (`expect` on atom/residue construction, `panic!` on an
unrecognized space group, the unreachable arm of the modification
applier) are the `Except.error` case. -/

/-- Scan state of `parse`: the growing model, the current structural
model accumulator, the three staging collections, and the diagnostics
gathered so far. -/
structure PState where
  pdb : PDB
  current_model : Model
  sequence : List (Char × List (Nat × Nat × List String))
  database_references : List (Char × DatabaseReference)
  modifications : List (Context × LexItem)
  errors : List PDBError
deriving DecidableEq, Repr

/-- Initial scan state: empty model, accumulator with model number 0,
empty staging collections (the source's `HashMap` staging of
reference-sequence fragments is modelled as an insertion-ordered
association list). -/
def startState : PState :=
  ⟨PDB.new, Model.new 0, [], [], [], []⟩

/-- Staging of one reference-sequence fragment under its chain id,
mirroring the `sequence.get_mut / insert` pair. -/
def addSeqres (chain_id : Char) (v : Nat × Nat × List String) :
    List (Char × List (Nat × Nat × List String)) →
    List (Char × List (Nat × Nat × List String))
  | [] => [(chain_id, [v])]
  | (c, l) :: rest =>
    if c == chain_id then (c, l ++ [v]) :: rest
    else (c, l) :: addSeqres chain_id v rest

/-- Appending a sequence difference to the first staged database
reference of the chain, `none` when the chain has none (mirroring
`database_references.iter_mut().find(...)`). -/
def addDiffFirst (chain_id : Char) (d : SequenceDifference) :
    List (Char × DatabaseReference) → Option (List (Char × DatabaseReference))
  | [] => none
  | (c, r) :: rest =>
    if c == chain_id then
      some ((c, { r with differences := r.differences ++ [d] }) :: rest)
    else (addDiffFirst chain_id d rest).map ((c, r) :: ·)

/-- The transform-row count the trailer check compares against: three
rows per valid identity transform, scale transform and symmetry
operator, in the order the source accumulates them. -/
def xformCount (p : PDB) : Nat :=
  (if optValid p.origx then 3 else 0) + (if optValid p.scale then 3 else 0)
    + 3 * (p.mtrix.filter MtriX.valid).length

/-- Detail text of the trailer comment-count mismatch. -/
def masterRemarkMsg (actual declared : Nat) : String :=
  "The number of REMARKS (" ++ toString actual ++
    ") is different then posed in the MASTER Record (" ++ toString declared ++ ")"

/-- Detail text of the nonzero must-be-zero trailer field. -/
def masterEmptyMsg (value : Nat) : String :=
  "The empty checksum number is not empty (value: " ++ toString value ++
    ") while it is defined to be empty."

/-- Detail text of the trailer transform-row-count mismatch. -/
def masterXformMsg (actual declared : Nat) : String :=
  "The number of coordinate transformation records (" ++ toString actual ++
    ") is different then posed in the MASTER Record (" ++ toString declared ++ ")"

/-- Detail text of the trailer atom-count mismatch. -/
def masterCoordMsg (actual declared : Nat) : String :=
  "The number of Atoms (Normal + Hetero) (" ++ toString actual ++
    ") is different then posed in the MASTER Record (" ++ toString declared ++ ")"

/-- Detail text of a sequence difference without a prior staged database
reference. -/
def seqadvMsg (chain_id : Char) : String :=
  "For this sequence difference (chain: " ++ String.mk [chain_id] ++
    ") the corresponding database definition (DBREF) was not found, make sure the DBREF is located before the SEQADV"

/-- Embedding of the per-record arm of `parse`'s scan loop: fold one
lexed record into the scan state.  The `Except.error` results are the
source's process aborts (`expect` at atom creation, `panic!` at an
unrecognized space group); the failed ANISOU lookup only prints to
standard output in the source, a no-op here. -/
def applyLexItem (ctx : Context) (st : PState) : LexItem → Except String PState
  | LexItem.Remark num text =>
    Except.ok { st with pdb := st.pdb.add_remark num text }
  | LexItem.Atom hetero sn nm _ rn ci rs _ x y z occ b _ el ch =>
    match Atom.new sn nm x y z occ b el ch with
    | some atom =>
      Except.ok { st with current_model :=
        (if hetero then st.current_model.add_hetero_atom atom ci rs rn
         else st.current_model.add_atom atom ci rs rn) }
    | none => Except.error "Invalid characters in atom creation"
  | LexItem.Anisou s _ _ _ _ _ _ factors _ _ _ =>
    match st.current_model.set_anisou s factors with
    | some m => Except.ok { st with current_model := m }
    | none => Except.ok st
  | LexItem.Model number =>
    Except.ok { st with
      pdb := (if 0 < st.current_model.atom_count then
        st.pdb.add_model st.current_model else st.pdb),
      current_model := Model.new number }
  | LexItem.Scale n row =>
    Except.ok { st with pdb := { st.pdb with
      scale := some ((st.pdb.scale.getD TMatrix.new).set_row n row) } }
  | LexItem.OrigX n row =>
    Except.ok { st with pdb := { st.pdb with
      origx := some ((st.pdb.origx.getD TMatrix.new).set_row n row) } }
  | LexItem.MtriX n ser row given =>
    let l := match updMtrixList n ser row given st.pdb.mtrix with
      | some l2 => l2
      | none => st.pdb.mtrix ++
          [{ (({ MtriX.new with serial_number := ser } : MtriX).set_row n row)
              with contained := given }]
    Except.ok { st with pdb := { st.pdb with mtrix := l } }
  | LexItem.Crystal a b c alpha beta gamma spacegroup _ =>
    match Symmetry.new spacegroup with
    | some sym =>
      Except.ok { st with pdb := { st.pdb with
        unit_cell := some (UnitCell.new a b c alpha beta gamma),
        symmetry := some sym } }
    | none => Except.error ("Invalid space group: \"" ++ spacegroup ++ "\"")
  | LexItem.Seqres ser ci num vals =>
    Except.ok { st with sequence := addSeqres ci (ser, num, vals) st.sequence }
  | LexItem.Dbref _ ci lp db dba dbi dbp =>
    Except.ok { st with database_references := st.database_references ++
      [(ci, DatabaseReference.new (db, dba, dbi)
        (SequencePosition.from_tuple lp) (SequencePosition.from_tuple dbp))] }
  | LexItem.Seqadv _ ci rn sn _ _ _ dbp comment =>
    match addDiffFirst ci (SequenceDifference.new (rn, sn) dbp comment)
        st.database_references with
    | some refs => Except.ok { st with database_references := refs }
    | none =>
      Except.ok { st with errors := st.errors ++
        [PDBError.new ErrorLevel.StrictWarning
          "Sequence Difference Database not found" (seqadvMsg ci) ctx] }
  | m@(LexItem.Modres _ _ _ _ _ _ _) =>
    Except.ok { st with modifications := st.modifications ++
      [(Context.Show (reprStr m), m)] }
  | LexItem.Master nr ne _ _ _ _ _ nx nc _ _ _ =>
    let st1 := if 0 < st.current_model.total_atom_count then
      { st with pdb := (st.pdb.add_model st.current_model),
                current_model := Model.new 0 }
      else st
    let e1 := if nr ≠ st1.pdb.remark_count then
      [PDBError.new ErrorLevel.StrictWarning "MASTER checksum failed"
        (masterRemarkMsg st1.pdb.remark_count nr) ctx] else []
    let e2 := if ne ≠ 0 then
      [PDBError.new ErrorLevel.LooseWarning "MASTER checksum failed"
        (masterEmptyMsg ne) ctx] else []
    let e3 := if nx ≠ xformCount st1.pdb then
      [PDBError.new ErrorLevel.StrictWarning "MASTER checksum failed"
        (masterXformMsg (xformCount st1.pdb) nx) ctx] else []
    let e4 := if nc ≠ st1.pdb.total_atom_count then
      [PDBError.new ErrorLevel.StrictWarning "MASTER checksum failed"
        (masterCoordMsg st1.pdb.total_atom_count nc) ctx] else []
    Except.ok { st1 with errors := st1.errors ++ e1 ++ e2 ++ e3 ++ e4 }
  | _ => Except.ok st

/-- One line of the scan loop: lex, extend the diagnostics with the
line's diagnostics, fold the record (a line that cannot be lexed at all
contributes its single diagnostic and nothing else; an out-of-bounds
read inside a lexer aborts the whole scan). -/
def applyLine (ctx : Context) (st : PState) (entry : String × Nat) :
    Except String PState :=
  match lex_line entry.1.toList entry.2 with
  | Except.ok (Except.ok (item, line_errors)) =>
    applyLexItem ctx { st with errors := st.errors ++ line_errors } item
  | Except.ok (Except.error e) =>
    Except.ok { st with errors := st.errors ++ [e] }
  | Except.error msg => Except.error msg

/-- The scan loop over enumerated lines. -/
def runLines (ctx : Context) : PState → List (String × Nat) → Except String PState
  | st, [] => Except.ok st
  | st, entry :: rest =>
    match applyLine ctx st entry with
    | Except.ok st2 => runLines ctx st2 rest
    | Except.error msg => Except.error msg

/-- The scan over all lines with 1-based line numbers. -/
def scanLines (lines : List String) (ctx : Context) : Except String PState :=
  runLines ctx startState (lines.enum.map (fun p => (p.2, p.1 + 1)))

/-- End-of-stream flush: a non-empty accumulator is appended, an empty
one silently discarded. -/
def finishScan (st : PState) : PState :=
  if 0 < st.current_model.total_atom_count then
    { st with pdb := st.pdb.add_model st.current_model }
  else st

/-- Attachment of the staged database references to their matching
chains by id; unmatched chain ids are silently dropped. -/
def attachDbrefs (pdb : PDB) (refs : List (Char × DatabaseReference)) : PDB :=
  refs.foldl (fun p cr => p.modify_chain cr.1
    (fun c => { c with database_reference := some cr.2 })) pdb

/-- Left-padding of a monomer code to its 3-character identity,
mirroring the `format!` padding before `Residue::new`. -/
def padThree (seq : String) : List Char :=
  (seq.toList ++ [' ', ' ', ' ']).take 3

/-- Fragment scan of `validate_seqres`: serial numbers must run 1,2,3,…
(strict-warning per violation), every fragment must declare the total of
the first fragment (strict-warning per mismatch), and the monomer-code
lists concatenate in fragment order. -/
def seqresScan (chain_id : Char) (ctx : Context) :
    Nat → Nat → List (Nat × Nat × List String) →
    List String × Nat × List PDBError
  | _, residues, [] => ([], residues, [])
  | serial, residues, (ser_num, res_num, seq) :: rest =>
    let e1 := if serial ≠ ser_num then
      [PDBError.new ErrorLevel.StrictWarning "SEQRES serial number invalid"
        ("The serial number for SEQRES chain \"" ++ String.mk [chain_id] ++
          "\" with number \"" ++ toString ser_num ++
          "\" does not follow sequentially from the previous row.") ctx]
      else []
    let e2 := if residues == 0 then [] else if residues ≠ res_num then
      [PDBError.new ErrorLevel.StrictWarning "SEQRES residue total invalid"
        ("The residue total for SEQRES chain \"" ++ String.mk [chain_id] ++
          "\" with number \"" ++ toString ser_num ++
          "\" does not match the total on the first row for this chain.") ctx]
      else []
    let residues2 := if residues == 0 then res_num else residues
    let (seqs, rtot, erest) := seqresScan chain_id ctx (serial + 1) residues2 rest
    (seq ++ seqs, rtot, e1 ++ e2 ++ erest)

/-- The three-way merge of `validate_seqres`: walk the declared sequence
(position-in-list plus offset) against the chain's residues in ascending
serial order, synthesizing residues for declared positions without an
observed counterpart (inserted sorted while residues remain, appended
after they are exhausted), flagging identity mismatches, and — the
quirk inherited from the source — leaving the residue cursor in place
when an observed residue precedes the expected position.  The source
indexes the declared sequence out of range in the mismatch message
(which would abort); the message here substitutes the empty string, a
deviation confined to the message text of that diagnostic.  The result
is (inserted residues, appended residues, diagnostics); the
`Except.error` case is the source's `expect` on `Residue::new`. -/
def mergeWalk (chain_id : Char) (ctx : Context) (full : List String)
    (offset : Nat) :
    List String → Nat → List Residue →
    Except String (List Residue × List Residue × List PDBError)
  | [], _, _ => Except.ok ([], [], [])
  | seq :: seqs, raw_index, rem =>
    let index := raw_index + offset
    match rem with
    | n :: rem_rest =>
      if index = n.serial_number then
        let e := if seq ≠ n.id then
          [PDBError.new ErrorLevel.StrictWarning "SEQRES residue invalid"
            ("The residue index " ++ toString index ++ " value \"" ++
              full.getD index "" ++ "\" for SEQRES chain \"" ++
              String.mk [chain_id] ++
              "\" does not match the residue in the chain value \"" ++
              n.id ++ "\".") ctx]
          else []
        match mergeWalk chain_id ctx full offset seqs (raw_index + 1) rem_rest with
        | Except.ok (ins, app, es) => Except.ok (ins, app, e ++ es)
        | Except.error msg => Except.error msg
      else if index < n.serial_number then
        match Residue.new index (padThree seq) none with
        | some r =>
          match mergeWalk chain_id ctx full offset seqs (raw_index + 1) rem with
          | Except.ok (ins, app, es) => Except.ok (r :: ins, app, es)
          | Except.error msg => Except.error msg
        | none => Except.error "Invalid characters in Residue generations"
      else
        let e := PDBError.new ErrorLevel.StrictWarning "Chain residue invalid"
          ("The residue index " ++ toString n.serial_number ++ " value \"" ++
            n.id ++ "\" for Chain \"" ++ String.mk [chain_id] ++
            "\" is not sequentially increasing, value expected: " ++
            toString index ++ ".") ctx
        match mergeWalk chain_id ctx full offset seqs (raw_index + 1) rem with
        | Except.ok (ins, app, es) => Except.ok (ins, app, e :: es)
        | Except.error msg => Except.error msg
    | [] =>
      match Residue.new index (padThree seq) none with
      | some r =>
        match mergeWalk chain_id ctx full offset seqs (raw_index + 1) [] with
        | Except.ok (ins, app, es) => Except.ok (ins, r :: app, es)
        | Except.error msg => Except.error msg
      | none => Except.error "Invalid characters in Residue generations"

/-- Reconciliation of one chain against its staged reference-sequence
fragments: fragment checks, declared-total checks, the offset derived
from an attached database reference (default 1, decremented per
database-less difference ahead of the covered span; the source's
unsigned subtractions are truncating here), the three-way merge, and the
final count check. -/
def validate_seqres_chain (chain : Chain) (chain_id : Char)
    (data : List (Nat × Nat × List String)) (ctx : Context) :
    Except String (Chain × List PDBError) :=
  let (chain_sequence, residues, errs1) := seqresScan chain_id ctx 1 0 data
  let errs2 := if chain_sequence.length ≠ residues then
    [PDBError.new ErrorLevel.StrictWarning "SEQRES residue total invalid"
      ("The residue total for SEQRES chain \"" ++ String.mk [chain_id] ++
        "\" does not match the total residues found in the seqres records.")
      ctx]
    else []
  let (offset, errs3) : Nat × List PDBError :=
    match chain.database_reference with
    | some db_ref =>
      let off := db_ref.pdb_position.start -
        (db_ref.differences.filter (fun dif =>
          dif.database_residue.isNone &&
            decide (dif.residue.2 < db_ref.pdb_position.start))).length
      (off, if db_ref.pdb_position.stop - off + 1 ≠ residues then
        [PDBError.new ErrorLevel.StrictWarning "SEQRES residue total invalid"
          ("The residue total for SEQRES chain \"" ++ String.mk [chain_id] ++
            "\" does not match the total residues found in the dbref record.")
          ctx]
        else [])
    | none => (1, [])
  match mergeWalk chain_id ctx chain_sequence offset chain_sequence 0
      chain.residues with
  | Except.error msg => Except.error msg
  | Except.ok (inserted, appended, errs4) =>
    let chain2 : Chain := { chain with residues :=
      (inserted.foldl (fun rs r => insertResidueSorted r rs) chain.residues)
        ++ appended }
    let errs5 := if chain_sequence.length ≠ chain2.residue_count then
      [PDBError.new ErrorLevel.StrictWarning "SEQRES residue total invalid"
        ("The residue total (" ++ toString chain_sequence.length ++
          ") for SEQRES chain \"" ++ String.mk [chain_id] ++
          "\" does not match the total residues found in the chain (" ++
          toString chain2.residue_count ++ ").") ctx]
      else []
    Except.ok (chain2, errs1 ++ errs2 ++ errs3 ++ errs4 ++ errs5)

/-- Embedding of `validate_seqres`: per staged chain (in staging order;
the source iterates a hash map), reconcile the chain found by id and
replace it; chains without a match are skipped silently. -/
def validate_seqres :
    PDB → List (Char × List (Nat × Nat × List String)) → Context →
    Except String (PDB × List PDBError)
  | pdb, [], _ => Except.ok (pdb, [])
  | pdb, (chain_id, data) :: rest, ctx =>
    match pdb.find_chain chain_id with
    | some chain =>
      match validate_seqres_chain chain chain_id data ctx with
      | Except.error msg => Except.error msg
      | Except.ok (chain2, errs) =>
        match validate_seqres (pdb.modify_chain chain_id (fun _ => chain2))
            rest ctx with
        | Except.error msg => Except.error msg
        | Except.ok (pdb2, errs2) => Except.ok (pdb2, errs ++ errs2)
    | none => validate_seqres pdb rest ctx

/-- Application of a function to the first residue satisfying the
predicate. -/
def modifyFirstResidue (pred : Residue → Bool) (f : Residue → Residue) :
    List Residue → List Residue
  | [] => []
  | r :: rest =>
    if pred r then f r :: rest else r :: modifyFirstResidue pred f rest

/-- Embedding of `add_modifications`: per staged modification record,
find the chain by id and the residue by (3-letter identity, serial
number); a missing chain or residue yields a distinct invalidating
diagnostic, a rejected setter yields an invalidating diagnostic, and a
non-MODRES staged item is the source's unreachable `panic!`. -/
def add_modifications :
    PDB → List (Context × LexItem) → Except String (PDB × List PDBError)
  | pdb, [] => Except.ok (pdb, [])
  | pdb, (ctx, item) :: rest =>
    match item with
    | LexItem.Modres _ res_name chain_id seq_num _ std_name comment =>
      match pdb.find_chain chain_id with
      | some chain =>
        match chain.residues.find? (fun r =>
            r.id_array == res_name && r.serial_number == seq_num) with
        | some residue =>
          match residue.set_modification (std_name, comment) with
          | Except.ok r2 =>
            let pdb2 := pdb.modify_chain chain_id (fun c =>
              { c with residues := (modifyFirstResidue
                  (fun r => r.id_array == res_name &&
                    r.serial_number == seq_num)
                  (fun _ => r2) c.residues) })
            match add_modifications pdb2 rest with
            | Except.error msg => Except.error msg
            | Except.ok (p3, es) => Except.ok (p3, es)
          | Except.error e =>
            match add_modifications pdb rest with
            | Except.error msg => Except.error msg
            | Except.ok (p3, es) => Except.ok (p3,
                PDBError.new ErrorLevel.InvalidatingError "Invalid characters"
                  e ctx :: es)
        | none =>
          match add_modifications pdb rest with
          | Except.error msg => Except.error msg
          | Except.ok (p3, es) => Except.ok (p3,
              PDBError.new ErrorLevel.InvalidatingError
                "Modified residue could not be found"
                "The residue presented in this MODRES record could not be found in the specified chain in the PDB file."
                ctx :: es)
      | none =>
        match add_modifications pdb rest with
        | Except.error msg => Except.error msg
        | Except.ok (p3, es) => Except.ok (p3,
            PDBError.new ErrorLevel.InvalidatingError
              "Modified residue could not be found"
              "The chain presented in this MODRES record could not be found in the PDB file."
              ctx :: es)
    | _ =>
      Except.error
        "Found an invalid element in the modifications list, it is not a LexItem::Modres"

/-- The level-independent part of `parse`: scan all lines, flush the
accumulator, attach staged database references, reconcile sequences,
apply modifications, run the external validator; the result is the
assembled model together with the complete diagnostic list (or the
source's process abort). -/
def runPipeline (lines : List String) (ctx : Context) :
    Except String (PDB × List PDBError) :=
  match scanLines lines ctx with
  | Except.error msg => Except.error msg
  | Except.ok st0 =>
    let st := finishScan st0
    let pdb0 := attachDbrefs st.pdb st.database_references
    match validate_seqres pdb0 st.sequence ctx with
    | Except.error msg => Except.error msg
    | Except.ok (pdb1, e1) =>
      match add_modifications pdb1 st.modifications with
      | Except.error msg => Except.error msg
      | Except.ok (pdb2, e2) =>
        Except.ok (pdb2, st.errors ++ e1 ++ e2 ++ validate pdb2)

/-- Outcome of a parse run: a process abort (the source's `panic!` or
`expect`), a failure carrying the complete diagnostic list and no model,
or the assembled model with the complete diagnostic list. -/
inductive ParseResult where
  | aborted (msg : String)
  | failure (errors : List PDBError)
  | success (pdb : PDB) (errors : List PDBError)
deriving DecidableEq, Repr

/-- Embedding of `parse`: the accept/reject decision is made exactly
once, at the end, by scanning the complete diagnostic list for a
diagnostic failing the strictness threshold. -/
def parse (lines : List String) (context : Context)
    (level : StrictnessLevel) : ParseResult :=
  match runPipeline lines context with
  | Except.error msg => ParseResult.aborted msg
  | Except.ok (pdb, errors) =>
    if errors.any (fun e => e.fails level) then ParseResult.failure errors
    else ParseResult.success pdb errors

/-! Settlement of the claims. -/

/-- C1: the claim states that `parse` runs to completion on every input
without terminating its host process, converting would-be aborts
(disallowed characters in a constructed identity, an unrecognized space
group) into invalidating-content diagnostics.  The code violates this:
on a unit-cell line whose space group is not recognized, `parse` reaches
the source's `panic!("Invalid space group: ...")` (parser.rs lines
159-165; the atom-construction `expect` at lines 91-92 is the same
pattern), modelled here as the aborted outcome.  This theorem exhibits
the abort at a concrete input line. -/
theorem c1_parse_aborts_on_unrecognized_space_group :
    parse
      ["CRYST1    1.000    1.000    1.000  90.00  90.00  90.00 BAD GROUP  "]
      (Context.Show "stream") ErrorLevel.BreakingError =
    ParseResult.aborted "Invalid space group: \"BAD GROUP  \"" := by
  decide

/-- C2: whenever the scan and the post-scan passes complete (no process
abort), `parse` fails carrying exactly the complete diagnostic list when
some diagnostic of that list fails the configured strictness threshold,
and otherwise returns the assembled model together with that same
complete list; the decision is this single scan of the full list at the
very end. -/
theorem c2_threshold_decision (lines : List String) (ctx : Context)
    (level : StrictnessLevel) (pdb : PDB) (errors : List PDBError)
    (h : runPipeline lines ctx = Except.ok (pdb, errors)) :
    parse lines ctx level =
      (if errors.any (fun e => e.fails level) then ParseResult.failure errors
       else ParseResult.success pdb errors) := by
  unfold parse
  rw [h]

/-- Witness for C2 at a concrete input: the empty stream pipeline
completes with the empty model and no diagnostics, and the threshold
decision returns them. -/
theorem c2_threshold_decision_witness :
    parse [] (Context.Show "w") ErrorLevel.GeneralWarning =
      (if ([] : List PDBError).any (fun e => e.fails ErrorLevel.GeneralWarning)
       then ParseResult.failure [] else ParseResult.success PDB.new []) :=
  c2_threshold_decision [] (Context.Show "w") ErrorLevel.GeneralWarning
    PDB.new [] rfl

/-- Observed residues of the C6 scenario (an atom each, so the residues
count as observed). -/
def c6_atom_a : Atom :=
  ⟨10, [' ', 'N', ' ', ' '], 0, 0, 0, 1, 0, [' ', ' '], 0, none⟩

/-- Second observed atom of the C6 scenario. -/
def c6_atom_b : Atom :=
  ⟨11, [' ', 'C', ' ', ' '], 0, 0, 0, 1, 0, [' ', ' '], 0, none⟩

/-- The C6 chain: observed residues at serial numbers 1 (ALA) and 3
(SER), no attached database reference. -/
def c6_chain : Chain :=
  ⟨'A', [⟨1, ['A', 'L', 'A'], [c6_atom_a], none⟩,
    ⟨3, ['S', 'E', 'R'], [c6_atom_b], none⟩], none⟩

/-- The C6 model: one structural model holding the C6 chain. -/
def c6_pdb : PDB :=
  { PDB.new with models := [{ Model.new 1 with chains := [c6_chain] }] }

/-- The C6 staged reference sequence: one fragment, serial 1, declared
total 3, monomer codes ALA GLY SER. -/
def c6_seq : List (Char × List (Nat × Nat × List String)) :=
  [('A', [(1, 3, ["ALA", "GLY", "SER"])])]

/-- C6: reconciling a chain with observed residues {1: ALA, 3: SER}
against the declared reference sequence [ALA, GLY, SER] (offset 1, no
database reference) yields exactly three residues in ascending serial
order {1: ALA, 2: GLY, 3: SER}, where residue 2 carries the declared
3-letter identity and no atoms (and no modification), the observed
residues keep their atoms, and no diagnostics at all (in particular no
identity-mismatch warnings) are emitted. -/
theorem c6_seqres_reconciliation :
    validate_seqres c6_pdb c6_seq (Context.Show "w") =
      Except.ok
        ({ PDB.new with models := [{ Model.new 1 with chains :=
            [⟨'A', [⟨1, ['A', 'L', 'A'], [c6_atom_a], none⟩,
              ⟨2, ['G', 'L', 'Y'], [], none⟩,
              ⟨3, ['S', 'E', 'R'], [c6_atom_b], none⟩], none⟩] }] },
         []) := by
  rfl

/-- The comment text a REMARK line contributes: everything after column
11, empty when the line is shorter. -/
def remarkText (line : List Char) : String :=
  if 11 < line.length then String.mk (line.drop 11) else ""

/-- C3: every atom or hetero-atom line shorter than 54 characters is
rejected by the lexer through the fatal channel with exactly one
breaking-severity diagnostic, and folding that line into any scan state
only appends that diagnostic: the model, the accumulator and the staging
collections are untouched, so the line contributes no atom. -/
theorem c3_short_atom_line (n : Nat) (line : String) (st : PState)
    (ctx : Context)
    (htag : line.toList.take 6 = "ATOM  ".toList ∨
      line.toList.take 6 = "HETATM".toList)
    (hlong : 6 < line.toList.length) (hshort : line.toList.length < 54) :
    ∃ e, lex_line line.toList n = Except.ok (Except.error e) ∧
      e.level = ErrorLevel.BreakingError ∧
      applyLine ctx st (line, n) =
        Except.ok { st with errors := st.errors ++ [e] } := by
  have hlong2 : 6 < line.length := hlong
  have hshort2 : line.length < 54 := hshort
  have hlex : lex_line line.toList n = Except.ok (Except.error
      (PDBError.new ErrorLevel.BreakingError "Atom line too short"
        "This line is too short to contain all necessary elements (up to `z` at least)."
        (Context.FullLine n (String.mk line.toList)))) := by
    rcases htag with h | h <;>
      · have h2 : List.take 6 line.data = _ := h
        simp [lex_line, h2, hlong2, lex_atom, hshort2]
  have hlex2 : lex_line line.data n = _ := hlex
  exact ⟨_, hlex, rfl, by simp [applyLine, hlex2]⟩

/-- Witness for C3 at a concrete input: an 8-character ATOM line. -/
theorem c3_short_atom_line_witness :
    (match lex_line ("ATOM   1".toList) 1 with
     | Except.ok (Except.error e) => e.level = ErrorLevel.BreakingError
     | _ => False) := by
  obtain ⟨e, h1, h2, _⟩ := c3_short_atom_line 1 "ATOM   1" startState
    (Context.Show "w") (Or.inl (by decide)) (by decide) (by decide)
  rw [h1]
  exact h2

/-- C10 (amended): a REMARK line whose text after column 11 is longer
than 70 characters (line length above 81) is returned through the fatal
single-diagnostic channel with loose-warning severity, so the whole line
contributes no comment record despite the diagnostic's low severity; a
REMARK line of length 10 to 81 contributes its comment record to the
model; but a REMARK line of length 7 to 9 — reached by the dispatch,
which only requires length above 6 — aborts the whole parse on the
out-of-bounds remark-number slice, contributing no comment either, so
the claim's unconditional "a remark of 70 characters or fewer is always
added" is false of the program. -/
theorem c10_long_remark_dropped (n : Nat) (line : String) (st : PState)
    (ctx : Context) (htag : line.toList.take 6 = "REMARK".toList)
    (h6 : 6 < line.toList.length) :
    (81 < line.toList.length →
      ∃ e, lex_line line.toList n = Except.ok (Except.error e) ∧
        e.level = ErrorLevel.LooseWarning ∧
        applyLine ctx st (line, n) =
          Except.ok { st with errors := st.errors ++ [e] }) ∧
    (10 ≤ line.toList.length → line.toList.length ≤ 81 →
      ∃ num errs, lex_line line.toList n =
          Except.ok (Except.ok (LexItem.Remark num (remarkText line.toList),
            errs)) ∧
        applyLine ctx st (line, n) = Except.ok { st with
          errors := (st.errors ++ errs),
          pdb := (st.pdb.add_remark num (remarkText line.toList)) }) ∧
    (line.toList.length < 10 →
      lex_line line.toList n =
        Except.error (rangePanicMsg 10 line.toList.length) ∧
      applyLine ctx st (line, n) =
        Except.error (rangePanicMsg 10 line.toList.length)) := by
  have h6a : 6 < line.length := h6
  have htag2 : List.take 6 line.data = "REMARK".toList := htag
  refine ⟨?_, ?_, ?_⟩
  · intro h81
    have h10 : ¬(line.length < 10) := by
      have : 81 < line.length := h81
      omega
    have h11 : 11 < line.length := by
      have : 81 < line.length := h81
      omega
    have h70 : 70 < line.length - 11 := by
      have : 81 < line.length := h81
      omega
    have hlex : lex_line line.toList n = Except.ok (Except.error
        (PDBError.new ErrorLevel.LooseWarning "Remark too long"
          "The REMARK is too long, the max is 70 characters."
          (Context.Line n (String.mk line.toList) 11
            (line.toList.length - 11)))) := by
      simp [lex_line, htag2, h6a, lex_remark, h10, h11, h70]
    have hlex2 : lex_line line.data n = _ := hlex
    exact ⟨_, hlex, rfl, by simp [applyLine, hlex2]⟩
  · intro h10 h81
    have h10a : ¬(line.length < 10) := by
      have : 10 ≤ line.length := h10
      omega
    have h81a : line.length ≤ 81 := h81
    by_cases h11 : 11 < line.length
    · have h70 : ¬(70 < line.length - 11) := by omega
      have hlex : lex_line line.toList n = Except.ok (Except.ok
          (LexItem.Remark
            (runCheck 0 (parse_number parseUsize
              (Context.Line n (String.mk line.toList) 7 3)
              (slice line.toList 7 10))).1
            (remarkText line.toList),
           (runCheck 0 (parse_number parseUsize
              (Context.Line n (String.mk line.toList) 7 3)
              (slice line.toList 7 10))).2 ++
            (if valid_remark_type_number
                (runCheck 0 (parse_number parseUsize
                  (Context.Line n (String.mk line.toList) 7 3)
                  (slice line.toList 7 10))).1 then [] else
              [PDBError.new ErrorLevel.StrictWarning
                "Remark type number invalid"
                "The remark-type-number is not valid, see wwPDB v3.30 for all valid numbers."
                (Context.Line n (String.mk line.toList) 7 3)]))) := by
        simp [lex_line, htag2, h6a, lex_remark, h10a, h11, h70, remarkText]
      have hlex2 : lex_line line.data n = _ := hlex
      exact ⟨_, _, hlex, by simp [applyLine, hlex2, applyLexItem]⟩
    · have hlex : lex_line line.toList n = Except.ok (Except.ok
          (LexItem.Remark
            (runCheck 0 (parse_number parseUsize
              (Context.Line n (String.mk line.toList) 7 3)
              (slice line.toList 7 10))).1
            (remarkText line.toList),
           (runCheck 0 (parse_number parseUsize
              (Context.Line n (String.mk line.toList) 7 3)
              (slice line.toList 7 10))).2 ++
            (if valid_remark_type_number
                (runCheck 0 (parse_number parseUsize
                  (Context.Line n (String.mk line.toList) 7 3)
                  (slice line.toList 7 10))).1 then [] else
              [PDBError.new ErrorLevel.StrictWarning
                "Remark type number invalid"
                "The remark-type-number is not valid, see wwPDB v3.30 for all valid numbers."
                (Context.Line n (String.mk line.toList) 7 3)]))) := by
        simp [lex_line, htag2, h6a, lex_remark, h10a, h11, remarkText]
      have hlex2 : lex_line line.data n = _ := hlex
      exact ⟨_, _, hlex, by simp [applyLine, hlex2, applyLexItem]⟩
  · intro hlt
    have hlt2 : line.length < 10 := hlt
    have hlex : lex_line line.toList n =
        Except.error (rangePanicMsg 10 line.toList.length) := by
      simp [lex_line, htag2, h6a, lex_remark, hlt2]
    have hlex2 : lex_line line.data n = _ := hlex
    exact ⟨hlex, by simp [applyLine, hlex2]⟩

/-- Witness for C10 at concrete inputs: an 82-character REMARK line is
dropped through the fatal channel with loose-warning severity, a
16-character REMARK line lexes to a comment record, and a 7-character
REMARK line aborts. -/
theorem c10_long_remark_dropped_witness :
    (match lex_line ("REMARK 999 " ++
        String.mk (List.replicate 71 'X')).toList 1 with
     | Except.ok (Except.error e) => e.level = ErrorLevel.LooseWarning
     | _ => False) ∧
    (match lex_line "REMARK 999 HELLO".toList 1 with
     | Except.ok (Except.ok (LexItem.Remark _ _, _)) => True
     | _ => False) ∧
    lex_line "REMARK ".toList 1 = Except.error (rangePanicMsg 10 7) := by
  refine ⟨?_, ?_, ?_⟩
  · obtain ⟨e, h1, h2, _⟩ := (c10_long_remark_dropped 1
      ("REMARK 999 " ++ String.mk (List.replicate 71 'X')) startState
      (Context.Show "w") (by decide) (by decide)).1 (by decide)
    rw [h1]
    exact h2
  · obtain ⟨num, errs, h1, _⟩ := (c10_long_remark_dropped 1
      "REMARK 999 HELLO" startState (Context.Show "w") (by decide)
      (by decide)).2.1 (by decide) (by decide)
    rw [h1]
    trivial
  · exact ((c10_long_remark_dropped 1 "REMARK " startState
      (Context.Show "w") (by decide) (by decide)).2.2 (by decide)).1

/-- Counterexample to C10 as stated: a 7-character REMARK line is
reached by the dispatch (its length is above 6) yet adds no comment —
the whole parse aborts on the out-of-bounds remark-number slice
`chars[7..10]`, the message naming range end 10 against length 7. -/
theorem c10_short_remark_abort_counterexample :
    parse ["REMARK "] (Context.Show "w") ErrorLevel.BreakingError =
      ParseResult.aborted (rangePanicMsg 10 7) := by
  rfl

/-- Helper for C7: appending a structural model leaves the comment
count, the transforms and the symmetry operators unchanged, and adds the
model's atoms to the total. -/
theorem total_atom_count_add_model (p : PDB) (m : Model) :
    (p.add_model m).total_atom_count =
      p.total_atom_count + m.total_atom_count := by
  simp [PDB.total_atom_count, PDB.add_model]

/-- Helper for C7: the transform-row count is three times the number of
valid transforms present. -/
theorem xformCount_eq_three_mul (p : PDB) :
    xformCount p = 3 * ((if optValid p.origx then 1 else 0) +
      (if optValid p.scale then 1 else 0) +
      (p.mtrix.filter MtriX.valid).length) := by
  by_cases h1 : optValid p.origx <;> by_cases h2 : optValid p.scale <;>
    simp [xformCount, h1, h2] <;> ring

/-- C7: processing an aggregate trailer record (after the forced flush
of a non-empty accumulator) runs four independent checks, all of them
regardless of earlier failures: a declared comment count differing from
the actual count appends a strict-consistency-warning, a nonzero
must-be-zero field appends a loose-style-warning, a declared
transform-row count differing from three times the number of valid
transforms appends a strict-consistency-warning, and a declared atom
count differing from the total atoms across all structural models
(accumulator included) appends a strict-consistency-warning. -/
theorem c7_master_checks (st : PState) (ctx : Context)
    (nr ne nh nhel nsh ntu nsi nx nc nt ncon nseq : Nat) :
    ∃ st2,
      applyLexItem ctx st (LexItem.Master nr ne nh nhel nsh ntu nsi nx nc nt
        ncon nseq) = Except.ok st2 ∧
      st2.errors = st.errors
        ++ (if nr = st.pdb.remark_count then [] else
            [PDBError.new ErrorLevel.StrictWarning "MASTER checksum failed"
              (masterRemarkMsg st.pdb.remark_count nr) ctx])
        ++ (if ne = 0 then [] else
            [PDBError.new ErrorLevel.LooseWarning "MASTER checksum failed"
              (masterEmptyMsg ne) ctx])
        ++ (if nx = xformCount st.pdb then [] else
            [PDBError.new ErrorLevel.StrictWarning "MASTER checksum failed"
              (masterXformMsg (xformCount st.pdb) nx) ctx])
        ++ (if nc = st.pdb.total_atom_count + st.current_model.total_atom_count
            then [] else
            [PDBError.new ErrorLevel.StrictWarning "MASTER checksum failed"
              (masterCoordMsg
                (st.pdb.total_atom_count + st.current_model.total_atom_count)
                nc) ctx]) ∧
      xformCount st.pdb = 3 * ((if optValid st.pdb.origx then 1 else 0) +
        (if optValid st.pdb.scale then 1 else 0) +
        (st.pdb.mtrix.filter MtriX.valid).length) := by
  refine ⟨_, rfl, ?_, xformCount_eq_three_mul st.pdb⟩
  by_cases hflush : 0 < st.current_model.total_atom_count
  · have hrm : (st.pdb.add_model st.current_model).remark_count =
        st.pdb.remark_count := rfl
    have hx : xformCount (st.pdb.add_model st.current_model) =
        xformCount st.pdb := rfl
    have htot := total_atom_count_add_model st.pdb st.current_model
    simp [applyLexItem, hflush, hrm, hx, htot, ite_not]
  · have hzero : st.current_model.total_atom_count = 0 := by omega
    simp [applyLexItem, hflush, hzero, ite_not]

/-- Statement-side description for C8 (following the claim's words): the
difference is appended to the difference list of the first staged
reference of its chain, all other entries unchanged. -/
def appendDiffToFirstRef (chain_id : Char) (d : SequenceDifference) :
    List (Char × DatabaseReference) → List (Char × DatabaseReference)
  | [] => []
  | (c, r) :: rest =>
    if c == chain_id then
      (c, { r with differences := r.differences ++ [d] }) :: rest
    else (c, r) :: appendDiffToFirstRef chain_id d rest

/-- Helper for C8: the staged-reference search fails exactly when no
entry carries the chain id. -/
theorem addDiffFirst_eq_none (chain_id : Char) (d : SequenceDifference)
    (l : List (Char × DatabaseReference))
    (h : l.find? (fun p => p.1 == chain_id) = none) :
    addDiffFirst chain_id d l = none := by
  induction l with
  | nil => rfl
  | cons x rest ih =>
    obtain ⟨c, r⟩ := x
    rw [List.find?_cons] at h
    by_cases hc : c == chain_id
    · simp [hc] at h
    · simp only [hc] at h
      simp [addDiffFirst, hc, ih h]

/-- Helper for C8: when some entry carries the chain id, the search
succeeds and appends the difference to the first such entry. -/
theorem addDiffFirst_eq_some (chain_id : Char) (d : SequenceDifference)
    (l : List (Char × DatabaseReference))
    (h : (l.find? (fun p => p.1 == chain_id)).isSome) :
    addDiffFirst chain_id d l = some (appendDiffToFirstRef chain_id d l) := by
  induction l with
  | nil => simp at h
  | cons x rest ih =>
    obtain ⟨c, r⟩ := x
    rw [List.find?_cons] at h
    by_cases hc : c == chain_id
    · simp [addDiffFirst, appendDiffToFirstRef, hc]
    · simp only [hc] at h
      simp [addDiffFirst, appendDiffToFirstRef, hc, ih h]

/-- C8: folding a sequence-difference record whose chain has no staged
database reference appends exactly one strict-consistency-warning and
drops the record (the staging collections and the model are untouched);
when a staged reference for the chain exists, the difference is appended
to the first such reference's difference list and no diagnostic is
emitted. -/
theorem c8_seqadv_requires_dbref (st : PState) (ctx : Context)
    (idc : List Char) (ci : Char) (rn : List Char) (sn : Nat) (ins : Char)
    (db dba : String) (dbp : Option (List Char × Nat)) (com : String) :
    (st.database_references.find? (fun p => p.1 == ci) = none →
      applyLexItem ctx st (LexItem.Seqadv idc ci rn sn ins db dba dbp com) =
        Except.ok { st with errors := (st.errors ++
          [PDBError.new ErrorLevel.StrictWarning
            "Sequence Difference Database not found" (seqadvMsg ci) ctx]) }) ∧
    ((st.database_references.find? (fun p => p.1 == ci)).isSome →
      applyLexItem ctx st (LexItem.Seqadv idc ci rn sn ins db dba dbp com) =
        Except.ok { st with database_references :=
          (appendDiffToFirstRef ci (SequenceDifference.new (rn, sn) dbp com)
            st.database_references) }) := by
  constructor
  · intro h
    simp [applyLexItem,
      addDiffFirst_eq_none ci (SequenceDifference.new (rn, sn) dbp com)
        st.database_references h]
  · intro h
    simp [applyLexItem,
      addDiffFirst_eq_some ci (SequenceDifference.new (rn, sn) dbp com)
        st.database_references h]

/-- A staged database reference for the C8 witness. -/
def c8_ref : DatabaseReference :=
  DatabaseReference.new ("UNP", "P12345", "ID1") ⟨1, ' ', 3, ' '⟩
    ⟨1, ' ', 3, ' '⟩

/-- A scan state already holding a staged reference for chain A. -/
def c8_state : PState :=
  { startState with database_references := [('A', c8_ref)] }

/-- Witness for C8 at concrete inputs: without a staged reference the
record yields the strict warning; with one, the difference lands in the
reference's difference list and no diagnostic is emitted. -/
theorem c8_seqadv_requires_dbref_witness :
    applyLexItem (Context.Show "w") startState
      (LexItem.Seqadv [] 'A' ['A', 'L', 'A'] 1 ' ' "UNP" "P12345" none "c") =
      Except.ok { startState with errors :=
        [PDBError.new ErrorLevel.StrictWarning
          "Sequence Difference Database not found" (seqadvMsg 'A')
          (Context.Show "w")] } ∧
    applyLexItem (Context.Show "w") c8_state
      (LexItem.Seqadv [] 'A' ['A', 'L', 'A'] 1 ' ' "UNP" "P12345" none "c") =
      Except.ok { c8_state with database_references :=
        (appendDiffToFirstRef 'A'
          (SequenceDifference.new (['A', 'L', 'A'], 1) none "c")
          c8_state.database_references) } := by
  constructor
  · exact (c8_seqadv_requires_dbref startState (Context.Show "w") [] 'A'
      ['A', 'L', 'A'] 1 ' ' "UNP" "P12345" none "c").1 rfl
  · exact (c8_seqadv_requires_dbref c8_state (Context.Show "w") [] 'A'
      ['A', 'L', 'A'] 1 ' ' "UNP" "P12345" none "c").2 (by decide)

/-- Statement-side description for C9 (following the claim's words): the
first atom of a traversal whose serial number matches receives the
factors; later atoms are untouched. -/
def setFirstMatchingAtom (serial : Nat) (factors : List (List Rat)) :
    List Atom → List Atom
  | [] => []
  | a :: rest =>
    if a.serial_number == serial then
      a.set_anisotropic_temperature_factors factors :: rest
    else a :: setFirstMatchingAtom serial factors rest

/-- Helper for C9: the last-match update fails exactly when no atom of
the list carries the serial number. -/
theorem updLastAtom_eq_none_iff (s : Nat) (f : List (List Rat))
    (l : List Atom) :
    updLastAtom s f l = none ↔ ∀ a ∈ l, a.serial_number ≠ s := by
  induction l with
  | nil => simp [updLastAtom]
  | cons a rest ih =>
    simp only [updLastAtom]
    cases h : updLastAtom s f rest with
    | some r2 =>
      simp only [reduceCtorEq, false_iff]
      intro hall
      have h0 : updLastAtom s f rest = none :=
        (ih).mpr (fun b hb => hall b (List.mem_cons_of_mem a hb))
      rw [h] at h0
      exact Option.noConfusion h0
    | none =>
      rw [h] at ih
      by_cases hs : a.serial_number = s
      · simp [hs, List.forall_mem_cons]
      · simp [hs, List.forall_mem_cons]
        exact ih.mp rfl

/-- Helper for C9: the last-match update over an appended list prefers
the second part. -/
theorem updLastAtom_append (s : Nat) (f : List (List Rat))
    (l1 l2 : List Atom) :
    updLastAtom s f (l1 ++ l2) =
      (match updLastAtom s f l2 with
       | some l2b => some (l1 ++ l2b)
       | none => (updLastAtom s f l1).map (· ++ l2)) := by
  induction l1 with
  | nil =>
    cases h : updLastAtom s f l2 <;> simp [h, updLastAtom]
  | cons a rest ih =>
    simp only [List.cons_append, updLastAtom, List.append_eq]
    rw [ih]
    cases h2 : updLastAtom s f l2 with
    | some l2b =>
      cases hr : updLastAtom s f rest <;> simp
    | none =>
      cases hr : updLastAtom s f rest with
      | some r2 => simp
      | none =>
        by_cases hs : a.serial_number = s <;> simp [hs]

/-- Helper for C9: the residue-level last-match update computes the
atom-level last-match update of the flattened atoms. -/
theorem updLastResidue_atoms (s : Nat) (f : List (List Rat))
    (rs : List Residue) :
    (updLastResidue s f rs).map residuesAtoms =
      updLastAtom s f (residuesAtoms rs) := by
  induction rs with
  | nil => simp [updLastResidue, residuesAtoms, updLastAtom]
  | cons r rest ih =>
    simp only [updLastResidue, residuesAtoms, updLastAtom_append]
    cases h : updLastResidue s f rest with
    | some rest2 =>
      have h2 : updLastAtom s f (residuesAtoms rest) = some (residuesAtoms rest2) := by
        rw [← ih, h]
        rfl
      simp [h2, residuesAtoms]
    | none =>
      have h2 : updLastAtom s f (residuesAtoms rest) = none := by
        rw [← ih, h]
        rfl
      cases ha : updLastAtom s f r.atoms <;>
        simp [h2, ha, residuesAtoms]

/-- Helper for C9: the chain-level last-match update computes the
atom-level last-match update of the flattened atoms. -/
theorem updLastChain_atoms (s : Nat) (f : List (List Rat))
    (cs : List Chain) :
    (updLastChain s f cs).map chainsAtoms =
      updLastAtom s f (chainsAtoms cs) := by
  induction cs with
  | nil => simp [updLastChain, chainsAtoms, updLastAtom]
  | cons c rest ih =>
    simp only [updLastChain, chainsAtoms, updLastAtom_append]
    cases h : updLastChain s f rest with
    | some rest2 =>
      have h2 : updLastAtom s f (chainsAtoms rest) = some (chainsAtoms rest2) := by
        rw [← ih, h]
        rfl
      simp [h2, chainsAtoms]
    | none =>
      have h2 : updLastAtom s f (chainsAtoms rest) = none := by
        rw [← ih, h]
        rfl
      cases hr : updLastResidue s f c.residues with
      | some rs2 =>
        have h3 : updLastAtom s f (residuesAtoms c.residues) =
            some (residuesAtoms rs2) := by
          rw [← updLastResidue_atoms, hr]
          rfl
        simp [h2, h3, chainsAtoms, chainAtoms]
      | none =>
        have h3 : updLastAtom s f (residuesAtoms c.residues) = none := by
          rw [← updLastResidue_atoms, hr]
          rfl
        simp [h2, h3, chainAtoms]

/-- Helper for C9: the model-level ANISOU update computes the atom-level
last-match update of the model's atom traversal. -/
theorem set_anisou_all_atoms (m : Model) (s : Nat) (f : List (List Rat)) :
    (m.set_anisou s f).map Model.all_atoms =
      updLastAtom s f m.all_atoms := by
  simp only [Model.set_anisou, Model.all_atoms, updLastAtom_append]
  cases hh : updLastChain s f m.hetero_chains with
  | some h2 =>
    have e : updLastAtom s f (chainsAtoms m.hetero_chains) =
        some (chainsAtoms h2) := by
      rw [← updLastChain_atoms, hh]
      rfl
    simp [e, Model.all_atoms]
  | none =>
    have e : updLastAtom s f (chainsAtoms m.hetero_chains) = none := by
      rw [← updLastChain_atoms, hh]
      rfl
    cases hc : updLastChain s f m.chains with
    | some c2 =>
      have e2 : updLastAtom s f (chainsAtoms m.chains) =
          some (chainsAtoms c2) := by
        rw [← updLastChain_atoms, hc]
        rfl
      simp [e, e2, Model.all_atoms]
    | none =>
      have e2 : updLastAtom s f (chainsAtoms m.chains) = none := by
        rw [← updLastChain_atoms, hc]
        rfl
      simp [e, e2]

/-- Helper for C9: a first-match update passes over an untouched prefix
without a match. -/
theorem setFirstMatchingAtom_append_no_match (s : Nat) (f : List (List Rat))
    (l1 l2 : List Atom) (h : ∀ a ∈ l1, a.serial_number ≠ s) :
    setFirstMatchingAtom s f (l1 ++ l2) = l1 ++ setFirstMatchingAtom s f l2 := by
  induction l1 with
  | nil => simp
  | cons a rest ih =>
    have ha : a.serial_number ≠ s := h a (List.mem_cons_self a rest)
    simp [setFirstMatchingAtom, ha]
    exact ih (fun b hb => h b (List.mem_cons_of_mem a hb))

/-- Helper for C9: a first-match update that hits inside the prefix
leaves the tail untouched. -/
theorem setFirstMatchingAtom_append_match (s : Nat) (f : List (List Rat))
    (l1 l2 : List Atom) (h : ∃ a ∈ l1, a.serial_number = s) :
    setFirstMatchingAtom s f (l1 ++ l2) = setFirstMatchingAtom s f l1 ++ l2 := by
  induction l1 with
  | nil => simp at h
  | cons a rest ih =>
    by_cases ha : a.serial_number = s
    · simp [setFirstMatchingAtom, ha]
    · have h2 : ∃ b ∈ rest, b.serial_number = s := by
        rcases h with ⟨b, hb, hbs⟩
        rcases List.mem_cons.mp hb with rfl | hb2
        · exact absurd hbs ha
        · exact ⟨b, hb2, hbs⟩
      simp [setFirstMatchingAtom, ha, ih h2]

/-- Helper for C9: a successful last-match update equals the first-match
update of the reversed traversal, reversed back. -/
theorem updLastAtom_eq_setFirst_reverse (s : Nat) (f : List (List Rat)) :
    ∀ (l l2 : List Atom), updLastAtom s f l = some l2 →
      l2 = (setFirstMatchingAtom s f l.reverse).reverse := by
  intro l
  induction l with
  | nil => intro l2 h; exact Option.noConfusion h
  | cons a rest ih =>
    intro l2 h
    simp only [updLastAtom] at h
    cases hr : updLastAtom s f rest with
    | some rest2 =>
      rw [hr] at h
      have hl2 : l2 = a :: rest2 := Option.some_inj.mp h.symm
      have hmatch : ∃ b ∈ rest.reverse, b.serial_number = s := by
        have : ¬(∀ b ∈ rest, b.serial_number ≠ s) := by
          intro hall
          have h0 := (updLastAtom_eq_none_iff s f rest).mpr hall
          rw [hr] at h0
          exact Option.noConfusion h0
        push_neg at this
        rcases this with ⟨b, hb, hbs⟩
        exact ⟨b, List.mem_reverse.mpr hb, hbs⟩
      rw [hl2, ih rest2 hr]
      rw [List.reverse_cons, setFirstMatchingAtom_append_match s f _ _ hmatch]
      simp
    | none =>
      rw [hr] at h
      by_cases ha : a.serial_number = s
      · simp only [ha, beq_self_eq_true, if_true] at h
        have hl2 : l2 = a.set_anisotropic_temperature_factors f :: rest :=
          Option.some_inj.mp h.symm
        have hnone : ∀ b ∈ rest.reverse, b.serial_number ≠ s := by
          intro b hb
          exact (updLastAtom_eq_none_iff s f rest).mp hr b
            (List.mem_reverse.mp hb)
        rw [hl2, List.reverse_cons,
          setFirstMatchingAtom_append_no_match s f _ _ hnone]
        simp [setFirstMatchingAtom, ha]
      · simp only [beq_iff_eq, ha, if_false] at h
        exact Option.noConfusion h

/-- C9: folding an anisotropic-factor record scans the accumulator's
atoms from most-recently-inserted backward: when no atom's serial number
matches, the state is returned unmodified — in particular the diagnostic
list is unchanged, no diagnostic is appended for the failed lookup — and
when the lookup succeeds the resulting accumulator's traversal equals
the reversed traversal with the factors set on its first matching atom,
reversed back (i.e. exactly the first match of the backward scan
received the factors); no diagnostic is appended either way. -/
theorem c9_anisou_reverse_scan (st : PState) (ctx : Context) (s : Nat)
    (nm : List Char) (al : Char) (rn : List Char) (ci : Char) (rs : Nat)
    (ins : Char) (fs : List (List Rat)) (seg el : List Char) (ch : Int) :
    ((∀ a ∈ st.current_model.all_atoms, a.serial_number ≠ s) →
      applyLexItem ctx st (LexItem.Anisou s nm al rn ci rs ins fs seg el ch) =
        Except.ok st) ∧
    (∀ m2, st.current_model.set_anisou s fs = some m2 →
      applyLexItem ctx st (LexItem.Anisou s nm al rn ci rs ins fs seg el ch) =
        Except.ok { st with current_model := m2 } ∧
      m2.all_atoms =
        (setFirstMatchingAtom s fs st.current_model.all_atoms.reverse).reverse) := by
  constructor
  · intro h
    have h1 : updLastAtom s fs st.current_model.all_atoms = none :=
      (updLastAtom_eq_none_iff s fs _).mpr h
    have h2 : st.current_model.set_anisou s fs = none := by
      have h3 := set_anisou_all_atoms st.current_model s fs
      rw [h1] at h3
      exact Option.map_eq_none'.mp h3
    simp [applyLexItem, h2]
  · intro m2 h2
    constructor
    · simp [applyLexItem, h2]
    · have h3 := set_anisou_all_atoms st.current_model s fs
      rw [h2] at h3
      exact updLastAtom_eq_setFirst_reverse s fs _ _ h3.symm

/-- One observed atom for the C9 witness, serial number 5. -/
def c9_atom : Atom :=
  ⟨5, [' ', 'N', ' ', ' '], 0, 0, 0, 1, 0, [' ', ' '], 0, none⟩

/-- A scan state whose accumulator holds one atom of serial number 5. -/
def c9_state : PState :=
  { startState with current_model := { Model.new 0 with chains :=
      [⟨'A', [⟨1, ['A', 'L', 'A'], [c9_atom], none⟩], none⟩] } }

/-- The C9 factors. -/
def c9_factors : List (List Rat) :=
  [[1, 0, 0], [0, 0, 0]]

/-- Witness for C9 at concrete inputs: a lookup for serial 9 over an
empty accumulator leaves the state untouched, and a lookup for serial 5
over the one-atom accumulator sets that atom's factors. -/
theorem c9_anisou_reverse_scan_witness :
    applyLexItem (Context.Show "w") startState
      (LexItem.Anisou 9 [] ' ' [] 'A' 1 ' ' c9_factors [] [] 0) =
      Except.ok startState ∧
    (applyLexItem (Context.Show "w") c9_state
      (LexItem.Anisou 5 [] ' ' [] 'A' 1 ' ' c9_factors [] [] 0) =
      Except.ok { c9_state with current_model := { Model.new 0 with chains :=
        [⟨'A', [⟨1, ['A', 'L', 'A'],
          [c9_atom.set_anisotropic_temperature_factors c9_factors],
          none⟩], none⟩] } } ∧
      ({ Model.new 0 with chains := [⟨'A', [⟨1, ['A', 'L', 'A'],
          [c9_atom.set_anisotropic_temperature_factors c9_factors],
          none⟩], none⟩] } : Model).all_atoms =
        (setFirstMatchingAtom 5 c9_factors
          c9_state.current_model.all_atoms.reverse).reverse) := by
  constructor
  · exact (c9_anisou_reverse_scan startState (Context.Show "w") 9 [] ' ' []
      'A' 1 ' ' c9_factors [] [] 0).1 (by decide)
  · exact (c9_anisou_reverse_scan c9_state (Context.Show "w") 5 [] ' ' []
      'A' 1 ' ' c9_factors [] [] 0).2 _ (by decide)

/-- Statement-side view for C4 (following the claim's words): the value
of a numeric field is the parsed number, or the zero default when the
whitespace-stripped characters do not parse. -/
def fieldOrZero {α : Type} (zero : α) (pf : List Char → Option α)
    (input : List Char) : α :=
  (pf (stripWs input)).getD zero

/-- Statement-side view for C4 (following the claim's words): a numeric
field contributes exactly one invalidating-content diagnostic carrying
the field's context when it does not parse, and none otherwise. -/
def fieldDiag {α : Type} (pf : List Char → Option α) (ctx : Context)
    (input : List Char) : List PDBError :=
  match pf (stripWs input) with
  | none =>
    [PDBError.new ErrorLevel.InvalidatingError "Not a number"
      "The text presented is not a number of the right kind." ctx]
  | some _ => []

/-- Statement-side view for C4: the charge value and diagnostics the
source computes whenever its column-79 read stays in bounds — the
branches of `chargeField` with the two out-of-bounds aborts removed. -/
def chargeFieldView (linenumber : Nat) (line : List Char) :
    Int × List PDBError :=
  if 79 ≤ line.length then
    if charAt line 78 = ' ' then
      if charAt line 79 = ' ' then (0, [])
      else (0, [PDBError.new ErrorLevel.InvalidatingError
        "Atom charge is not correct"
        "The charge is not numeric, it is defined to be [0-9][+-], so two characters in total."
        (Context.Line linenumber (String.mk line) 78 1)])
    else
      if !(charAt line 78).isDigit then
        (0, [PDBError.new ErrorLevel.InvalidatingError
          "Atom charge is not correct"
          "The charge is not numeric, it is defined to be [0-9][+-], so two characters in total."
          (Context.Line linenumber (String.mk line) 78 1)])
      else if charAt line 79 ≠ '-' ∧ charAt line 79 ≠ '+' then
        (0, [PDBError.new ErrorLevel.InvalidatingError
          "Atom charge is not correct"
          "The charge is not properly signed, it is defined to be [0-9][+-], so two characters in total."
          (Context.Line linenumber (String.mk line) 79 1)])
      else
        (if charAt line 79 = '-' then
            -(((charAt line 78).toNat - 48 : Nat) : Int)
          else (((charAt line 78).toNat - 48 : Nat) : Int), [])
  else (0, [])

/-- Statement-side view for C4: the atom record with every numeric field
given by parse-or-zero and every other field still extracted from its
column range. -/
def atomItemView (linenumber : Nat) (line : List Char) (hetero : Bool) :
    LexItem :=
  LexItem.Atom hetero
    (fieldOrZero 0 parseUsize (slice line 7 11))
    [charAt line 12, charAt line 13, charAt line 14, charAt line 15]
    (charAt line 16)
    [charAt line 17, charAt line 18, charAt line 19]
    (charAt line 21)
    (fieldOrZero 0 parseUsize (slice line 22 26))
    (charAt line 26)
    (fieldOrZero 0 parseF64 (slice line 30 38))
    (fieldOrZero 0 parseF64 (slice line 38 46))
    (fieldOrZero 0 parseF64 (slice line 46 54))
    (if 60 ≤ line.length then fieldOrZero 0 parseF64 (slice line 54 60) else 1)
    (if 66 ≤ line.length then fieldOrZero 0 parseF64 (slice line 60 66) else 0)
    (if 75 ≤ line.length then
      [charAt line 72, charAt line 73, charAt line 74, charAt line 75]
      else [' ', ' ', ' ', ' '])
    (if 77 ≤ line.length then [charAt line 76, charAt line 77]
      else [' ', ' '])
    (chargeFieldView linenumber line).1

/-- Statement-side view for C4: the diagnostics of an atom record are
exactly the per-field diagnostics, one per failing numeric field, in
field order. -/
def atomErrsView (linenumber : Nat) (line : List Char) : List PDBError :=
  fieldDiag parseF64 (Context.Line linenumber (String.mk line) 30 8)
    (slice line 30 38) ++
  fieldDiag parseF64 (Context.Line linenumber (String.mk line) 38 8)
    (slice line 38 46) ++
  fieldDiag parseF64 (Context.Line linenumber (String.mk line) 46 8)
    (slice line 46 54) ++
  (if 60 ≤ line.length then
    fieldDiag parseF64 (Context.Line linenumber (String.mk line) 54 6)
      (slice line 54 60) else []) ++
  (if 66 ≤ line.length then
    fieldDiag parseF64 (Context.Line linenumber (String.mk line) 60 6)
      (slice line 60 66) else []) ++
  (fieldDiag parseUsize (Context.Line linenumber (String.mk line) 7 4)
      (slice line 7 11) ++
    fieldDiag parseUsize (Context.Line linenumber (String.mk line) 22 4)
      (slice line 22 26) ++
    (chargeFieldView linenumber line).2)

/-- Helper for C4: the value component of a checked field is
parse-or-zero. -/
theorem runCheck_parse_fst {α : Type} (pf : List Char → Option α) (zero : α)
    (ctx : Context) (input : List Char) :
    (runCheck zero (parse_number pf ctx input)).1 =
      (pf (stripWs input)).getD zero := by
  cases h : pf (stripWs input) <;> simp [runCheck, parse_number, h]

/-- Helper for C4: the diagnostic component of a checked field is its
field diagnostic. -/
theorem runCheck_parse_snd {α : Type} (pf : List Char → Option α) (zero : α)
    (ctx : Context) (input : List Char) :
    (runCheck zero (parse_number pf ctx input)).2 =
      fieldDiag pf ctx input := by
  cases h : pf (stripWs input) <;> simp [runCheck, parse_number, fieldDiag, h]

/-- Helper for C4: every field diagnostic is invalidating. -/
theorem fieldDiag_level {α : Type} (pf : List Char → Option α)
    (ctx : Context) (input : List Char) :
    ∀ e ∈ fieldDiag pf ctx input, e.level = ErrorLevel.InvalidatingError := by
  intro e he
  unfold fieldDiag at he
  cases h : pf (stripWs input) with
  | none =>
    rw [h] at he
    simp at he
    subst he
    rfl
  | some v =>
    rw [h] at he
    simp at he

/-- Helper for C4: the in-bounds charge field equals its view; the
hypothesis rules out exactly the lines whose column-79 read aborts. -/
theorem chargeField_eq_view (n : Nat) (line : List Char)
    (hnp : line.length = 79 →
      charAt line 78 ≠ ' ' ∧ ¬(charAt line 78).isDigit) :
    chargeField n line = Except.ok (chargeFieldView n line) := by
  by_cases h79 : 79 ≤ line.length
  · by_cases hb : charAt line 78 = ' '
    · have hne : line.length ≠ 79 := fun heq => (hnp heq).1 hb
      by_cases hc : charAt line 79 = ' ' <;>
        simp [chargeField, chargeFieldView, h79, hb, hne, hc]
    · by_cases hd : (charAt line 78).isDigit
      · have hne : line.length ≠ 79 := fun heq => (hnp heq).2 hd
        by_cases hs : charAt line 79 = '-'
        · simp [chargeField, chargeFieldView, h79, hb, hd, hne, hs]
        · by_cases hp : charAt line 79 = '+' <;>
            simp [chargeField, chargeFieldView, h79, hb, hd, hne, hs, hp]
      · simp [chargeField, chargeFieldView, h79, hb, hd]
  · simp [chargeField, chargeFieldView, h79]

/-- Helper for C4: every charge diagnostic is invalidating. -/
theorem chargeField_level (linenumber : Nat) (line : List Char) :
    ∀ e ∈ (chargeFieldView linenumber line).2,
      e.level = ErrorLevel.InvalidatingError := by
  intro e he
  unfold chargeFieldView at he
  split at he
  · split at he
    · split at he
      · simp at he
      · simp at he
        subst he
        rfl
    · split at he
      · simp at he
        subst he
        rfl
      · split at he
        · simp at he
          subst he
          rfl
        · simp at he
  · simp at he

/-- Helper for C4: a field diagnostic counts one for its own context
exactly when the field fails. -/
theorem countP_fieldDiag_self {α : Type} (pf : List Char → Option α)
    (ctx : Context) (input : List Char) :
    (fieldDiag pf ctx input).countP (fun e => e.context == ctx) =
      (if (pf (stripWs input)).isNone then 1 else 0) := by
  unfold fieldDiag
  cases h : pf (stripWs input) <;>
    simp [List.countP_cons, PDBError.new]

/-- Helper for C4: a field diagnostic counts zero for any other
context. -/
theorem countP_fieldDiag_other {α : Type} (pf : List Char → Option α)
    (ctx ctx2 : Context) (input : List Char) (h : ctx ≠ ctx2) :
    (fieldDiag pf ctx input).countP (fun e => e.context == ctx2) = 0 := by
  unfold fieldDiag
  cases hp : pf (stripWs input) <;>
    simp [List.countP_cons, PDBError.new, h]

/-- Helper for C4: charge diagnostics never carry the x-coordinate's
context. -/
theorem countP_chargeField (linenumber : Nat) (line : List Char) :
    ((chargeFieldView linenumber line).2).countP
      (fun e => e.context ==
        Context.Line linenumber (String.mk line) 30 8) = 0 := by
  unfold chargeFieldView
  split
  · split
    · split <;> simp [List.countP_cons, PDBError.new]
    · split
      · simp [List.countP_cons, PDBError.new]
      · split <;> simp [List.countP_cons, PDBError.new]
  · simp

/-- C4 (amended): a numeric field whose whitespace-stripped character
range does not parse makes `parse_number` return exactly one
invalidating-content diagnostic for that field (first conjunct, for
every field of every record, since every numeric field goes through
`parse_number`); and the atom lexer does not abort a long-enough line
over numeric failures: it returns the record whose every numeric field
is parse-or-zero with the other fields still extracted, its diagnostics
are exactly the per-field diagnostics (all invalidating), and the x
field in particular counts one diagnostic exactly when it fails — but
only away from the lengths whose optional-field reads go out of bounds
(exactly 75, exactly 77, and 79 with a blank or digit at column 78),
where the claim's "the line is not aborted" is false of the program. -/
theorem c4_numeric_failure_zero_default :
    (∀ {α : Type} (pf : List Char → Option α) (ctx : Context)
        (input : List Char), pf (stripWs input) = none →
      parse_number pf ctx input = Except.error (PDBError.new
        ErrorLevel.InvalidatingError "Not a number"
        "The text presented is not a number of the right kind." ctx)) ∧
    (∀ (n : Nat) (line : List Char) (hetero : Bool), 54 ≤ line.length →
      line.length ≠ 75 → line.length ≠ 77 →
      (line.length = 79 →
        charAt line 78 ≠ ' ' ∧ ¬(charAt line 78).isDigit) →
      lex_atom n line hetero =
        Except.ok (Except.ok (atomItemView n line hetero,
          atomErrsView n line)) ∧
      (∀ e ∈ atomErrsView n line, e.level = ErrorLevel.InvalidatingError) ∧
      (atomErrsView n line).countP
          (fun e => e.context == Context.Line n (String.mk line) 30 8) =
        (if parseF64 (stripWs (slice line 30 38)) = none then 1 else 0)) := by
  constructor
  · intro α pf ctx input h
    simp [parse_number, h]
  · intro n line hetero h54 h75 h77 hnp
    have h54b : ¬(line.length < 54) := by omega
    have hch := chargeField_eq_view n line hnp
    refine ⟨?_, ?_, ?_⟩
    · by_cases h60 : 60 ≤ line.length <;> by_cases h66 : 66 ≤ line.length <;>
        simp [lex_atom, h54b, lex_atom_basics, h75, h77, hch, atomItemView,
          atomErrsView, runCheck_parse_fst, runCheck_parse_snd, fieldOrZero,
          h60, h66]
    · intro e he
      simp only [atomErrsView, List.mem_append] at he
      rcases he with ((((h1 | h1) | h1) | h1) | h1) | (h1 | h1) | h1
      · exact fieldDiag_level _ _ _ e h1
      · exact fieldDiag_level _ _ _ e h1
      · exact fieldDiag_level _ _ _ e h1
      · by_cases h60 : 60 ≤ line.length
        · rw [if_pos h60] at h1
          exact fieldDiag_level _ _ _ e h1
        · rw [if_neg h60] at h1
          simp at h1
      · by_cases h66 : 66 ≤ line.length
        · rw [if_pos h66] at h1
          exact fieldDiag_level _ _ _ e h1
        · rw [if_neg h66] at h1
          simp at h1
      · exact fieldDiag_level _ _ _ e h1
      · exact fieldDiag_level _ _ _ e h1
      · exact chargeField_level _ _ e h1
    · have hne : ∀ a b : Nat, (a, b) ≠ (30, 8) →
          Context.Line n (String.mk line) a b ≠
            Context.Line n (String.mk line) 30 8 := by
        intro a b hab heq
        apply hab
        cases heq
        rfl
      rw [atomErrsView]
      simp only [List.countP_append, countP_fieldDiag_self]
      rw [countP_fieldDiag_other _ _ _ _ (hne 38 8 (by simp)),
        countP_fieldDiag_other _ _ _ _ (hne 46 8 (by simp)),
        countP_fieldDiag_other _ _ _ _ (hne 7 4 (by simp)),
        countP_fieldDiag_other _ _ _ _ (hne 22 4 (by simp)),
        countP_chargeField]
      have h60 : (List.countP
          (fun e => e.context == Context.Line n (String.mk line) 30 8)
          (if 60 ≤ line.length then
            fieldDiag parseF64 (Context.Line n (String.mk line) 54 6)
              (slice line 54 60) else [])) = 0 := by
        split
        · exact countP_fieldDiag_other _ _ _ _ (hne 54 6 (by simp))
        · rfl
      have h66 : (List.countP
          (fun e => e.context == Context.Line n (String.mk line) 30 8)
          (if 66 ≤ line.length then
            fieldDiag parseF64 (Context.Line n (String.mk line) 60 6)
              (slice line 60 66) else [])) = 0 := by
        split
        · exact countP_fieldDiag_other _ _ _ _ (hne 60 6 (by simp))
        · rfl
      rw [h60, h66]
      cases h : parseF64 (stripWs (slice line 30 38)) <;> simp [h]

/-- The 54-character C4 witness line, with an unparseable x field at
columns 30 to 37. -/
def c4_line : String :=
  "ATOM      1  N   ALA A   1    ABCDEFGH   1.000   1.000"

/-- Witness for C4 at concrete inputs: an unparseable integer field
yields the invalidating diagnostic, and the witness atom line lexes
without aborting, with exactly one diagnostic. -/
theorem c4_numeric_failure_zero_default_witness :
    parse_number parseUsize (Context.Show "w") "ab".toList =
      Except.error (PDBError.new ErrorLevel.InvalidatingError "Not a number"
        "The text presented is not a number of the right kind."
        (Context.Show "w")) ∧
    lex_atom 1 c4_line.toList false =
      Except.ok (Except.ok (atomItemView 1 c4_line.toList false,
        atomErrsView 1 c4_line.toList)) ∧
    (atomErrsView 1 c4_line.toList).length = 1 := by
  refine ⟨?_, ?_, by decide⟩
  · exact c4_numeric_failure_zero_default.1 parseUsize (Context.Show "w")
      "ab".toList (by decide)
  · exact (c4_numeric_failure_zero_default.2 1 c4_line.toList false
      (by decide) (by decide) (by decide) (by decide)).1

/-- The C4 witness line padded with blanks to exactly 75 characters. -/
def c4_line75 : String :=
  c4_line ++ String.mk (List.replicate 21 ' ')

/-- Counterexample to C4 as stated: a 75-character ATOM line whose x
field does not parse is not carried through with a zero default and the
remaining fields — the line is aborted: the whole parse terminates on
the out-of-bounds segment-id read `chars[75]` made under the source's
`len >= 75` guard. -/
theorem c4_numeric_failure_abort_counterexample :
    parseF64 (stripWs (slice c4_line75.toList 30 38)) = none ∧
    54 ≤ c4_line75.toList.length ∧
    lex_atom 1 c4_line75.toList false = Except.error (idxPanicMsg 75 75) ∧
    parse [c4_line75] (Context.Show "w") ErrorLevel.BreakingError =
      ParseResult.aborted (idxPanicMsg 75 75) := by
  refine ⟨by decide, by decide, by rfl, by decide⟩

/-! Helpers for C5: the post-scan passes only insert atom-less residues
or touch non-atom fields, so every structural model's atom traversal is
preserved; combined with the guarded `add_model` calls this yields the
invariant that every retained model holds at least one atom. -/

/-- The invariant of C5: every structural model of the returned model
holds at least one atom. -/
def ModelsNonempty (p : PDB) : Prop :=
  ∀ m ∈ p.models, 0 < m.atom_count

/-- Flattened atoms distribute over residue-list append. -/
theorem residuesAtoms_append (l1 l2 : List Residue) :
    residuesAtoms (l1 ++ l2) = residuesAtoms l1 ++ residuesAtoms l2 := by
  induction l1 with
  | nil => simp [residuesAtoms]
  | cons r rest ih => simp [residuesAtoms, ih]

/-- Sorted insertion of an atom-less residue leaves the flattened atoms
unchanged. -/
theorem residuesAtoms_insertSorted (r : Residue) (h : r.atoms = [])
    (rs : List Residue) :
    residuesAtoms (insertResidueSorted r rs) = residuesAtoms rs := by
  induction rs with
  | nil => simp [insertResidueSorted, residuesAtoms, h]
  | cons x rest ih =>
    by_cases hlt : r.serial_number < x.serial_number <;>
      simp [insertResidueSorted, hlt, residuesAtoms, h, ih]

/-- A list of atom-less residues flattens to no atoms. -/
theorem residuesAtoms_all_nil (l : List Residue)
    (h : ∀ r ∈ l, r.atoms = []) : residuesAtoms l = [] := by
  induction l with
  | nil => rfl
  | cons r rest ih =>
    simp [residuesAtoms, h r (List.mem_cons_self r rest),
      ih (fun x hx => h x (List.mem_cons_of_mem r hx))]

/-- Folding sorted insertions of atom-less residues leaves the flattened
atoms unchanged. -/
theorem residuesAtoms_foldl_insert (ins : List Residue)
    (h : ∀ r ∈ ins, r.atoms = []) :
    ∀ rs0 : List Residue,
      residuesAtoms (ins.foldl (fun rs r => insertResidueSorted r rs) rs0) =
        residuesAtoms rs0 := by
  induction ins with
  | nil => intro rs0; rfl
  | cons r rest ih =>
    intro rs0
    rw [List.foldl_cons,
      ih (fun x hx => h x (List.mem_cons_of_mem r hx)),
      residuesAtoms_insertSorted r (h r (List.mem_cons_self r rest))]

/-- Every residue the merge synthesizes carries no atoms. -/
theorem mergeWalk_atoms_nil (chain_id : Char) (ctx : Context)
    (full : List String) (offset : Nat) :
    ∀ (seqs : List String) (raw_index : Nat) (rem : List Residue)
      (ins app : List Residue) (es : List PDBError),
      mergeWalk chain_id ctx full offset seqs raw_index rem =
        Except.ok (ins, app, es) →
      (∀ r ∈ ins, r.atoms = []) ∧ (∀ r ∈ app, r.atoms = []) := by
  intro seqs
  induction seqs with
  | nil =>
    intro raw_index rem ins app es h
    simp [mergeWalk] at h
    obtain ⟨h1, h2, _⟩ := h
    subst h1; subst h2
    exact ⟨by simp, by simp⟩
  | cons seq seqs ih =>
    intro raw_index rem ins app es h
    cases rem with
    | cons n rem_rest =>
      simp only [mergeWalk] at h
      by_cases he : raw_index + offset = n.serial_number
      · rw [if_pos he] at h
        cases hrec : mergeWalk chain_id ctx full offset seqs (raw_index + 1)
            rem_rest with
        | ok triple =>
          obtain ⟨ins2, app2, es2⟩ := triple
          rw [hrec] at h
          simp at h
          obtain ⟨h1, h2, _⟩ := h
          subst h1; subst h2
          exact ih (raw_index + 1) rem_rest ins2 app2 es2 hrec
        | error msg =>
          rw [hrec] at h
          simp at h
      · rw [if_neg he] at h
        by_cases hlt : raw_index + offset < n.serial_number
        · rw [if_pos hlt] at h
          cases hres : Residue.new (raw_index + offset) (padThree seq) none with
          | some r =>
            rw [hres] at h
            cases hrec : mergeWalk chain_id ctx full offset seqs
                (raw_index + 1) (n :: rem_rest) with
            | ok triple =>
              obtain ⟨ins2, app2, es2⟩ := triple
              rw [hrec] at h
              simp at h
              obtain ⟨h1, h2, _⟩ := h
              have hr : r.atoms = [] := by
                unfold Residue.new at hres
                split at hres
                · simp at hres
                  rw [← hres]
                · simp at hres
              obtain ⟨hres2, happ2⟩ :=
                ih (raw_index + 1) (n :: rem_rest) ins2 app2 es2 hrec
              subst h1; subst h2
              refine ⟨?_, happ2⟩
              intro x hx
              rcases List.mem_cons.mp hx with rfl | hx2
              · exact hr
              · exact hres2 x hx2
            | error msg =>
              rw [hrec] at h
              simp at h
          | none =>
            rw [hres] at h
            simp at h
        · rw [if_neg hlt] at h
          cases hrec : mergeWalk chain_id ctx full offset seqs (raw_index + 1)
              (n :: rem_rest) with
          | ok triple =>
            obtain ⟨ins2, app2, es2⟩ := triple
            rw [hrec] at h
            simp at h
            obtain ⟨h1, h2, _⟩ := h
            subst h1; subst h2
            exact ih (raw_index + 1) (n :: rem_rest) ins2 app2 es2 hrec
          | error msg =>
            rw [hrec] at h
            simp at h
    | nil =>
      simp only [mergeWalk] at h
      cases hres : Residue.new (raw_index + offset) (padThree seq) none with
      | some r =>
        rw [hres] at h
        cases hrec : mergeWalk chain_id ctx full offset seqs (raw_index + 1)
            [] with
        | ok triple =>
          obtain ⟨ins2, app2, es2⟩ := triple
          rw [hrec] at h
          simp at h
          obtain ⟨h1, h2, _⟩ := h
          have hr : r.atoms = [] := by
            unfold Residue.new at hres
            split at hres
            · simp at hres
              rw [← hres]
            · simp at hres
          obtain ⟨hres2, happ2⟩ := ih (raw_index + 1) [] ins2 app2 es2 hrec
          subst h1; subst h2
          refine ⟨hres2, ?_⟩
          intro x hx
          rcases List.mem_cons.mp hx with rfl | hx2
          · exact hr
          · exact happ2 x hx2
        | error msg =>
          rw [hrec] at h
          simp at h
      | none =>
        rw [hres] at h
        simp at h

/-- Reconciling a chain preserves its flattened atoms. -/
theorem validate_seqres_chain_atoms (chain : Chain) (chain_id : Char)
    (data : List (Nat × Nat × List String)) (ctx : Context)
    (chain2 : Chain) (errs : List PDBError)
    (h : validate_seqres_chain chain chain_id data ctx =
      Except.ok (chain2, errs)) :
    chainAtoms chain2 = chainAtoms chain := by
  unfold validate_seqres_chain at h
  rcases hscan : seqresScan chain_id ctx 1 0 data with ⟨seqs, rtot, erest⟩
  rw [hscan] at h
  cases hdb : chain.database_reference with
  | none =>
    rw [hdb] at h
    simp only [] at h
    cases hm : mergeWalk chain_id ctx seqs 1 seqs 0 chain.residues with
    | error msg =>
      rw [hm] at h
      simp at h
    | ok triple =>
      obtain ⟨ins, app, es⟩ := triple
      rw [hm] at h
      simp at h
      obtain ⟨hc, _⟩ := h
      obtain ⟨hins, happ⟩ := mergeWalk_atoms_nil _ _ _ _ _ _ _ _ _ _ hm
      rw [← hc]
      show residuesAtoms _ = residuesAtoms chain.residues
      rw [residuesAtoms_append, residuesAtoms_foldl_insert ins hins,
        residuesAtoms_all_nil app happ, List.append_nil]
  | some db_ref =>
    rw [hdb] at h
    simp only [] at h
    cases hm : mergeWalk chain_id ctx seqs
        (db_ref.pdb_position.start -
          (db_ref.differences.filter (fun dif =>
            dif.database_residue.isNone &&
              decide (dif.residue.2 < db_ref.pdb_position.start))).length)
        seqs 0 chain.residues with
    | error msg =>
      rw [hm] at h
      simp at h
    | ok triple =>
      obtain ⟨ins, app, es⟩ := triple
      rw [hm] at h
      simp at h
      obtain ⟨hc, _⟩ := h
      obtain ⟨hins, happ⟩ := mergeWalk_atoms_nil _ _ _ _ _ _ _ _ _ _ hm
      rw [← hc]
      show residuesAtoms _ = residuesAtoms chain.residues
      rw [residuesAtoms_append, residuesAtoms_foldl_insert ins hins,
        residuesAtoms_all_nil app happ, List.append_nil]

/-- Helper for C5: a chain search that fails makes the chain-list
modification fail too. -/
theorem modifyFirstChain_eq_none (id : Char) (f : Chain → Chain)
    (cs : List Chain) (h : cs.find? (fun c => c.id == id) = none) :
    modifyFirstChain id f cs = none := by
  induction cs with
  | nil => rfl
  | cons c rest ih =>
    rw [List.find?_cons] at h
    by_cases hc : c.id == id
    · simp [hc] at h
    · simp only [hc] at h
      simp [modifyFirstChain, hc, ih h]

/-- Helper for C5: a successful chain search identifies the chain the
modification is applied to; when the modification preserves the chain's
atoms, the chain list's atoms are preserved. -/
theorem modifyFirstChain_found (id : Char) (f : Chain → Chain) :
    ∀ (cs : List Chain) (c : Chain),
      cs.find? (fun x => x.id == id) = some c →
      ∃ cs2, modifyFirstChain id f cs = some cs2 ∧
        (chainAtoms (f c) = chainAtoms c → chainsAtoms cs2 = chainsAtoms cs) := by
  intro cs
  induction cs with
  | nil => intro c h; simp at h
  | cons x rest ih =>
    intro c h
    rw [List.find?_cons] at h
    by_cases hx : x.id == id
    · simp only [hx, if_pos] at h
      have hc : x = c := by simpa using h
      subst hc
      refine ⟨f x :: rest, by simp [modifyFirstChain, hx], ?_⟩
      intro hpres
      simp [chainsAtoms, hpres]
    · simp only [hx] at h
      obtain ⟨cs2, hm, hp⟩ := ih c h
      refine ⟨x :: cs2, by simp [modifyFirstChain, hx, hm], ?_⟩
      intro hpres
      simp [chainsAtoms, hp hpres]

/-- Helper for C5: the model-level chain search agrees with the
model-level modification, and an atoms-preserving modification of the
found chain preserves every model's atom count. -/
theorem modifyChainInModels_found (id : Char) (f : Chain → Chain) :
    ∀ (ms : List Model) (c : Chain),
      (modelsChains ms).find? (fun x => x.id == id) = some c →
      ∃ ms2, modifyChainInModels id f ms = some ms2 ∧
        (chainAtoms (f c) = chainAtoms c →
          ms2.map Model.atom_count = ms.map Model.atom_count) := by
  intro ms
  induction ms with
  | nil => intro c h; simp [modelsChains] at h
  | cons m rest ih =>
    intro c h
    rw [modelsChains, List.find?_append] at h
    cases hf : m.chains.find? (fun x => x.id == id) with
    | some c0 =>
      rw [hf] at h
      simp at h
      subst h
      obtain ⟨cs2, hm, hp⟩ := modifyFirstChain_found id f m.chains c0 hf
      refine ⟨{ m with chains := cs2 } :: rest,
        by simp [modifyChainInModels, hm], ?_⟩
      intro hpres
      have : Model.atom_count { m with chains := cs2 } = Model.atom_count m := by
        simp [Model.atom_count, Model.all_atoms, hp hpres]
      simp [this]
    | none =>
      rw [hf] at h
      simp at h
      obtain ⟨ms2, hm, hp⟩ := ih c h
      refine ⟨m :: ms2,
        by simp [modifyChainInModels, modifyFirstChain_eq_none id f m.chains hf,
          hm], ?_⟩
      intro hpres
      simp [hp hpres]

/-- Helper for C5: model counts determine the nonemptiness invariant. -/
theorem nonempty_of_counts_eq (ms2 ms : List Model)
    (hmap : ms2.map Model.atom_count = ms.map Model.atom_count)
    (h : ∀ m ∈ ms, 0 < m.atom_count) : ∀ m2 ∈ ms2, 0 < m2.atom_count := by
  intro m2 hm2
  have hmem : m2.atom_count ∈ ms2.map Model.atom_count :=
    List.mem_map_of_mem _ hm2
  rw [hmap] at hmem
  obtain ⟨m, hm, he⟩ := List.mem_map.mp hmem
  rw [← he]
  exact h m hm

/-- Helper for C5: a failed model-level chain search makes the
model-level modification fail too. -/
theorem modifyChainInModels_eq_none (id : Char) (f : Chain → Chain) :
    ∀ ms : List Model,
      (modelsChains ms).find? (fun x => x.id == id) = none →
      modifyChainInModels id f ms = none := by
  intro ms
  induction ms with
  | nil => intro _; rfl
  | cons m rest ih =>
    intro h
    rw [modelsChains, List.find?_append] at h
    cases hf : m.chains.find? (fun x => x.id == id) with
    | some c0 =>
      rw [hf] at h
      simp at h
    | none =>
      rw [hf] at h
      simp at h
      have h2 : List.find? (fun x => x.id == id) (modelsChains rest) = none := by
        rw [List.find?_eq_none]
        intro x hx
        simp [h x hx]
      simp [modifyChainInModels, modifyFirstChain_eq_none id f m.chains hf,
        ih h2]

/-- Helper for C5: modifying the found chain in an atoms-preserving way
preserves the nonemptiness invariant (a failed search is a no-op). -/
theorem modify_chain_nonempty (p : PDB) (id : Char) (f : Chain → Chain)
    (hpres : ∀ c, p.find_chain id = some c →
      chainAtoms (f c) = chainAtoms c)
    (h : ModelsNonempty p) : ModelsNonempty (p.modify_chain id f) := by
  unfold PDB.modify_chain
  cases hfind : (modelsChains p.models).find? (fun x => x.id == id) with
  | some c =>
    obtain ⟨ms2, hm, hp⟩ := modifyChainInModels_found id f p.models c hfind
    rw [hm]
    exact nonempty_of_counts_eq ms2 p.models (hp (hpres c hfind)) h
  | none =>
    rw [modifyChainInModels_eq_none id f p.models hfind]
    exact h

/-- Helper for C5: reconciliation preserves the nonemptiness
invariant. -/
theorem validate_seqres_nonempty :
    ∀ (seqList : List (Char × List (Nat × Nat × List String))) (p : PDB)
      (ctx : Context) (p2 : PDB) (errs : List PDBError),
      validate_seqres p seqList ctx = Except.ok (p2, errs) →
      ModelsNonempty p → ModelsNonempty p2 := by
  intro seqList
  induction seqList with
  | nil =>
    intro p ctx p2 errs h hp
    simp [validate_seqres] at h
    rw [← h.1]
    exact hp
  | cons entry rest ih =>
    obtain ⟨chain_id, data⟩ := entry
    intro p ctx p2 errs h hp
    simp only [validate_seqres] at h
    cases hfind : p.find_chain chain_id with
    | some chain =>
      rw [hfind] at h
      simp only [] at h
      cases hvc : validate_seqres_chain chain chain_id data ctx with
      | error msg =>
        rw [hvc] at h
        simp at h
      | ok pair =>
        obtain ⟨chain2, errs1⟩ := pair
        rw [hvc] at h
        simp only [] at h
        cases hrec : validate_seqres (p.modify_chain chain_id (fun _ => chain2))
            rest ctx with
        | error msg =>
          rw [hrec] at h
          simp at h
        | ok pair2 =>
          obtain ⟨p3, errs2⟩ := pair2
          rw [hrec] at h
          simp at h
          rw [← h.1]
          apply ih _ ctx _ _ hrec
          apply modify_chain_nonempty p chain_id _ _ hp
          intro c hc
          rw [hfind] at hc
          have hcc : chain = c := by simpa using hc
          subst hcc
          exact validate_seqres_chain_atoms chain chain_id data ctx chain2
            errs1 hvc
    | none =>
      rw [hfind] at h
      exact ih p ctx p2 errs h hp

/-- Helper for C5: a successful modification setter preserves the
residue's atoms. -/
theorem set_modification_atoms (r : Residue) (m : List Char × String)
    (r2 : Residue) (h : r.set_modification m = Except.ok r2) :
    r2.atoms = r.atoms := by
  unfold Residue.set_modification at h
  split at h
  · simp at h
    rw [← h]
  · simp at h

/-- Helper for C5: replacing the found residue with an atoms-equal
residue preserves the flattened atoms. -/
theorem modifyFirstResidue_atoms (pred : Residue → Bool) (r2 : Residue) :
    ∀ (rs : List Residue) (r0 : Residue), rs.find? pred = some r0 →
      r2.atoms = r0.atoms →
      residuesAtoms (modifyFirstResidue pred (fun _ => r2) rs) =
        residuesAtoms rs := by
  intro rs
  induction rs with
  | nil => intro r0 h; simp at h
  | cons x rest ih =>
    intro r0 h hat
    rw [List.find?_cons] at h
    by_cases hx : pred x
    · simp only [hx, if_pos] at h
      have : x = r0 := by simpa using h
      subst this
      simp [modifyFirstResidue, hx, residuesAtoms, hat]
    · simp only [hx] at h
      simp [modifyFirstResidue, hx, residuesAtoms, ih r0 h hat]

/-- Helper for C5: the modification applier preserves the nonemptiness
invariant. -/
theorem add_modifications_nonempty :
    ∀ (mods : List (Context × LexItem)) (p : PDB) (p2 : PDB)
      (errs : List PDBError),
      add_modifications p mods = Except.ok (p2, errs) →
      ModelsNonempty p → ModelsNonempty p2 := by
  intro mods
  induction mods with
  | nil =>
    intro p p2 errs h hp
    simp [add_modifications] at h
    rw [← h.1]
    exact hp
  | cons entry rest ih =>
    obtain ⟨ctx, item⟩ := entry
    intro p p2 errs h hp
    cases item <;> simp only [add_modifications] at h <;>
      try exact absurd h (by simp)
    rename_i idc res_name chain_id seq_num ins std_name comment
    cases hfind : p.find_chain chain_id with
    | some chain =>
      rw [hfind] at h
      simp only [] at h
      cases hres : chain.residues.find? (fun r =>
          r.id_array == res_name && r.serial_number == seq_num) with
      | some residue =>
        rw [hres] at h
        simp only [] at h
        cases hset : residue.set_modification (std_name, comment) with
        | ok r2 =>
          rw [hset] at h
          simp only [] at h
          cases hrec : add_modifications (p.modify_chain chain_id (fun c =>
              { c with residues := (modifyFirstResidue
                  (fun r => r.id_array == res_name &&
                    r.serial_number == seq_num)
                  (fun _ => r2) c.residues) })) rest with
          | error msg =>
            rw [hrec] at h
            simp at h
          | ok pair2 =>
            obtain ⟨p3, errs2⟩ := pair2
            rw [hrec] at h
            simp at h
            rw [← h.1]
            apply ih _ _ _ hrec
            apply modify_chain_nonempty p chain_id _ _ hp
            intro c hc
            rw [hfind] at hc
            have hcc : chain = c := by simpa using hc
            subst hcc
            show residuesAtoms _ = residuesAtoms chain.residues
            exact modifyFirstResidue_atoms _ r2 chain.residues residue hres
              (set_modification_atoms residue (std_name, comment) r2 hset)
        | error msg =>
          rw [hset] at h
          cases hrec : add_modifications p rest with
          | error msg2 =>
            rw [hrec] at h
            simp at h
          | ok pair2 =>
            obtain ⟨p3, errs2⟩ := pair2
            rw [hrec] at h
            simp at h
            rw [← h.1]
            exact ih _ _ _ hrec hp
      | none =>
        rw [hres] at h
        cases hrec : add_modifications p rest with
        | error msg2 =>
          rw [hrec] at h
          simp at h
        | ok pair2 =>
          obtain ⟨p3, errs2⟩ := pair2
          rw [hrec] at h
          simp at h
          rw [← h.1]
          exact ih _ _ _ hrec hp
    | none =>
      rw [hfind] at h
      cases hrec : add_modifications p rest with
      | error msg2 =>
        rw [hrec] at h
        simp at h
      | ok pair2 =>
        obtain ⟨p3, errs2⟩ := pair2
        rw [hrec] at h
        simp at h
        rw [← h.1]
        exact ih _ _ _ hrec hp

/-- Helper for C5: attaching database references preserves the
nonemptiness invariant. -/
theorem attachDbrefs_nonempty :
    ∀ (refs : List (Char × DatabaseReference)) (p : PDB),
      ModelsNonempty p → ModelsNonempty (attachDbrefs p refs) := by
  intro refs
  induction refs with
  | nil => intro p hp; exact hp
  | cons cr rest ih =>
    intro p hp
    show ModelsNonempty (attachDbrefs (p.modify_chain cr.1
      (fun c => { c with database_reference := some cr.2 })) rest)
    apply ih
    apply modify_chain_nonempty p cr.1 _ _ hp
    intro c _
    rfl

/-- Helper for C5: folding one record preserves the nonemptiness
invariant — every `add_model` call is guarded by a positive atom
count. -/
theorem applyLexItem_nonempty (ctx : Context) (st : PState) (item : LexItem)
    (st2 : PState) (h : applyLexItem ctx st item = Except.ok st2)
    (hp : ModelsNonempty st.pdb) : ModelsNonempty st2.pdb := by
  cases item <;> simp only [applyLexItem] at h
  case Remark =>
    injection h with h2
    subst h2
    exact hp
  case Atom hetero sn nm al rn ci rs ins x y z occ b seg el ch =>
    cases hA : Atom.new sn nm x y z occ b el ch with
    | some atom =>
      rw [hA] at h
      injection h with h2
      subst h2
      exact hp
    | none =>
      rw [hA] at h
      exact absurd h (by simp)
  case Anisou s nm al rn ci rs ins fs seg el ch =>
    cases hA : st.current_model.set_anisou s fs with
    | some m2 =>
      rw [hA] at h
      injection h with h2
      subst h2
      exact hp
    | none =>
      rw [hA] at h
      injection h with h2
      subst h2
      exact hp
  case Model number =>
    injection h with h2
    subst h2
    intro m hm
    by_cases hc : 0 < st.current_model.atom_count
    · rw [if_pos hc] at hm
      simp [PDB.add_model] at hm
      rcases hm with hm | hm
      · exact hp m hm
      · subst hm
        exact hc
    · rw [if_neg hc] at hm
      exact hp m hm
  case Scale n row =>
    injection h with h2
    subst h2
    exact hp
  case OrigX n row =>
    injection h with h2
    subst h2
    exact hp
  case MtriX n ser row given =>
    injection h with h2
    subst h2
    exact hp
  case Crystal a b c al be ga sg z =>
    cases hS : Symmetry.new sg with
    | some sym =>
      rw [hS] at h
      injection h with h2
      subst h2
      exact hp
    | none =>
      rw [hS] at h
      exact absurd h (by simp)
  case Seqres ser ci num vals =>
    injection h with h2
    subst h2
    exact hp
  case Dbref idc ci lp db dba dbi dbp =>
    injection h with h2
    subst h2
    exact hp
  case Seqadv idc ci rn sn ins db dba dbp com =>
    cases hA : addDiffFirst ci (SequenceDifference.new (rn, sn) dbp com)
        st.database_references with
    | some refs =>
      rw [hA] at h
      injection h with h2
      subst h2
      exact hp
    | none =>
      rw [hA] at h
      injection h with h2
      subst h2
      exact hp
  case Modres idc rn ci sn ins sr com =>
    injection h with h2
    subst h2
    exact hp
  case Master nr ne nh nhel nsh ntu nsi nx nc nt ncon nseq =>
    injection h with h2
    subst h2
    by_cases hc : 0 < st.current_model.total_atom_count
    · simp only [if_pos hc]
      intro m hm
      simp [PDB.add_model] at hm
      rcases hm with hm | hm
      · exact hp m hm
      · subst hm
        exact hc
    · simp only [if_neg hc]
      exact hp
  case TER =>
    injection h with h2
    subst h2
    exact hp
  case End =>
    injection h with h2
    subst h2
    exact hp
  case EndModel =>
    injection h with h2
    subst h2
    exact hp
  case Empty =>
    injection h with h2
    subst h2
    exact hp

/-- Helper for C5: folding one line preserves the nonemptiness
invariant. -/
theorem applyLine_nonempty (ctx : Context) (st : PState)
    (entry : String × Nat) (st2 : PState)
    (h : applyLine ctx st entry = Except.ok st2)
    (hp : ModelsNonempty st.pdb) : ModelsNonempty st2.pdb := by
  unfold applyLine at h
  cases hl : lex_line entry.1.toList entry.2 with
  | ok inner =>
    cases inner with
    | ok pair =>
      obtain ⟨item, errs⟩ := pair
      rw [hl] at h
      exact applyLexItem_nonempty ctx _ item st2 h hp
    | error e =>
      rw [hl] at h
      simp only [] at h
      injection h with h2
      subst h2
      exact hp
  | error e =>
    rw [hl] at h
    simp only [] at h
    exact Except.noConfusion h

/-- Helper for C5: the scan loop preserves the nonemptiness
invariant. -/
theorem runLines_nonempty (ctx : Context) :
    ∀ (entries : List (String × Nat)) (st st2 : PState),
      runLines ctx st entries = Except.ok st2 →
      ModelsNonempty st.pdb → ModelsNonempty st2.pdb := by
  intro entries
  induction entries with
  | nil =>
    intro st st2 h hp
    simp [runLines] at h
    rw [← h]
    exact hp
  | cons e rest ih =>
    intro st st2 h hp
    simp only [runLines] at h
    cases ha : applyLine ctx st e with
    | ok st3 =>
      rw [ha] at h
      exact ih st3 st2 h (applyLine_nonempty ctx st e st3 ha hp)
    | error msg =>
      rw [ha] at h
      exact absurd h (by simp)

/-- Helper for C5: the end-of-stream flush preserves the nonemptiness
invariant (an empty accumulator is discarded, a non-empty one appended
with its positive count). -/
theorem finishScan_nonempty (st : PState) (hp : ModelsNonempty st.pdb) :
    ModelsNonempty (finishScan st).pdb := by
  unfold finishScan
  by_cases hc : 0 < st.current_model.total_atom_count
  · rw [if_pos hc]
    intro m hm
    simp [PDB.add_model] at hm
    rcases hm with hm | hm
    · exact hp m hm
    · subst hm
      exact hc
  · rw [if_neg hc]
    exact hp

/-- Helper for C5: whenever the pipeline completes, every structural
model of the returned hierarchical model holds at least one atom. -/
theorem runPipeline_nonempty (lines : List String) (ctx : Context)
    (pdb : PDB) (errs : List PDBError)
    (h : runPipeline lines ctx = Except.ok (pdb, errs)) :
    ModelsNonempty pdb := by
  unfold runPipeline at h
  cases hs : scanLines lines ctx with
  | error msg =>
    rw [hs] at h
    exact absurd h (by simp)
  | ok st0 =>
    rw [hs] at h
    simp only [] at h
    have h0 : ModelsNonempty startState.pdb := by
      intro m hm
      simp [startState, PDB.new] at hm
    have h1 : ModelsNonempty st0.pdb :=
      runLines_nonempty ctx _ startState st0 hs h0
    have h2 : ModelsNonempty (finishScan st0).pdb := finishScan_nonempty st0 h1
    have h3 : ModelsNonempty (attachDbrefs (finishScan st0).pdb
        (finishScan st0).database_references) :=
      attachDbrefs_nonempty _ _ h2
    cases hv : validate_seqres (attachDbrefs (finishScan st0).pdb
        (finishScan st0).database_references) (finishScan st0).sequence ctx with
    | error msg =>
      rw [hv] at h
      exact absurd h (by simp)
    | ok pair =>
      obtain ⟨pdb1, e1⟩ := pair
      rw [hv] at h
      simp only [] at h
      have h4 : ModelsNonempty pdb1 :=
        validate_seqres_nonempty _ _ ctx pdb1 e1 hv h3
      cases ham : add_modifications pdb1 (finishScan st0).modifications with
      | error msg =>
        rw [ham] at h
        exact absurd h (by simp)
      | ok pair2 =>
        obtain ⟨pdb2, e2⟩ := pair2
        rw [ham] at h
        simp at h
        rw [← h.1]
        exact add_modifications_nonempty _ pdb1 pdb2 e2 ham h4

/-- C5: every structural model of the returned hierarchical model
contains at least one atom.  At a model-boundary record the accumulator
is appended exactly when it holds at least one atom and a fresh
accumulator with the new serial number is started (first conjunct); at
end of stream a non-empty accumulator is appended and an empty one is
silently discarded (second conjunct); and whenever `parse` succeeds,
every retained structural model holds at least one atom (third
conjunct). -/
theorem c5_empty_models_never_retained :
    (∀ (ctx : Context) (st : PState) (number : Nat),
      applyLexItem ctx st (LexItem.Model number) =
        Except.ok { st with
          pdb := (if 0 < st.current_model.atom_count then
            st.pdb.add_model st.current_model else st.pdb),
          current_model := Model.new number }) ∧
    (∀ st : PState, finishScan st =
      (if 0 < st.current_model.total_atom_count then
        { st with pdb := st.pdb.add_model st.current_model } else st)) ∧
    (∀ (lines : List String) (ctx : Context) (level : StrictnessLevel)
        (pdb : PDB) (errors : List PDBError),
      parse lines ctx level = ParseResult.success pdb errors →
      ∀ m ∈ pdb.models, 0 < m.atom_count) := by
  refine ⟨fun ctx st number => rfl, fun st => rfl, ?_⟩
  intro lines ctx level pdb errors h
  unfold parse at h
  cases hrp : runPipeline lines ctx with
  | error msg =>
    rw [hrp] at h
    exact absurd h (by simp)
  | ok pair =>
    obtain ⟨pdb2, errs2⟩ := pair
    rw [hrp] at h
    simp only [] at h
    by_cases hf : errs2.any (fun e => e.fails level)
    · rw [if_pos hf] at h
      exact absurd h (by simp)
    · rw [if_neg hf] at h
      have : pdb2 = pdb := by
        injection h with h1 h2
      rw [← this]
      exact runPipeline_nonempty lines ctx pdb2 errs2 hrp

/-- The C5 witness stream: one well-formed atom line. -/
def c5_lines : List String :=
  ["ATOM      1  N   ALA A   1       1.000   2.000   3.000"]

/-- The model `parse` returns on the C5 witness stream. -/
def c5_pdb : PDB :=
  match parse c5_lines (Context.Show "w") ErrorLevel.BreakingError with
  | ParseResult.success p _ => p
  | _ => PDB.new

/-- The diagnostics `parse` returns on the C5 witness stream. -/
def c5_errs : List PDBError :=
  match parse c5_lines (Context.Show "w") ErrorLevel.BreakingError with
  | ParseResult.success _ e => e
  | _ => []

/-- Witness for C5 at a concrete input: the single retained structural
model of the witness stream holds at least one atom. -/
theorem c5_empty_models_never_retained_witness :
    0 < (c5_pdb.models.headD (Model.new 0)).atom_count := by
  have h := c5_empty_models_never_retained.2.2 c5_lines (Context.Show "w")
    ErrorLevel.BreakingError c5_pdb c5_errs (by rfl)
  have hm : c5_pdb.models = [c5_pdb.models.headD (Model.new 0)] := by rfl
  apply h
  rw [hm]
  exact List.mem_cons_self _ _

end PdbTbx
